import Mathlib

/-!
# Verification of the badge-generation core (mit-slm)

Shallow embedding, in Lean 4, of the components of the badge-generation
service that the specification describes: the text normalizer
(`app/services/text_processor.py`), the structured-data extractor
(`app/services/badge_generator.py`, `app/services/ollama_service.py`,
`app/routers/badges.py`), the streaming/non-streaming Ollama client
(`app/services/ollama_client.py`), the bounded-concurrency request
multiplexer (`app/services/ollama_service.py`), the TF-IDF similarity
utilities (`app/utils/similarity.py`, `badge-generator/main.py`) and the
icon retrieval fallbacks (`app/utils/icon_matcher.py`).

Modelling conventions:
* Python strings are modelled as Lean `String`/`List Char`; the character
  classes used by the regexes (`\\w`, `\\s`) and `str.lower()` are modelled
  at the ASCII level, which is the alphabet all embedded inputs live in.
* `json.loads` / `json.dumps` are modelled by an executable JSON parser and
  serializer written here; Python floats are modelled as rationals `ℚ`.
* Fallible Python code is modelled with `Option`/`Except`; an uncaught
  Python exception corresponds to an explicit error value, so "never
  raises" is the statement that the embedded function always produces a
  normal result.
* Third-party numeric kernels (sklearn TF-IDF weights and cosine values)
  are abstract parameters: the claims proved about them are structural
  (list lengths, guard and exception paths, boost arithmetic) and hold for
  every instantiation of the kernel.
-/

/-! ## Character-level utilities (Python `str` / `re` model, ASCII) -/

/-- The six ASCII characters matched by Python's regex class `\s`
(and stripped by `str.strip()`). -/
def isPySpace (c : Char) : Bool :=
  c = ' ' || c = '\t' || c = '\n' || c = '\x0d' || c = '\x0b' || c = '\x0c'

/-- Python regex class `\w` restricted to ASCII: letters, digits, underscore. -/
def isWordChar (c : Char) : Bool :=
  (('a' ≤ c && c ≤ 'z') || ('A' ≤ c && c ≤ 'Z') || ('0' ≤ c && c ≤ '9') || c = '_')

/-- `str.lower()` on one ASCII character. -/
def pyLowerChar (c : Char) : Char :=
  if 'A' ≤ c && c ≤ 'Z' then Char.ofNat (c.toNat + 32) else c

/-- `str.lower()` over a character list. -/
def pyLowerChars (l : List Char) : List Char := l.map pyLowerChar

/-- `str.strip()`: drop leading and trailing whitespace. -/
def pyStripChars (l : List Char) : List Char :=
  ((l.dropWhile isPySpace).reverse.dropWhile isPySpace).reverse

/-- `str.strip()` on a `String`. -/
def pyStrip (s : String) : String := String.mk (pyStripChars s.data)

/-- `re.sub(r'[^\w\s]', ' ', ·)`: replace every character that is neither a
word character nor whitespace by a single space. -/
def subNonWordSpace (l : List Char) : List Char :=
  l.map fun c => if !(isWordChar c) && !(isPySpace c) then ' ' else c

/-- `re.sub(r'\s+', ' ', ·)`: collapse every maximal whitespace run into a
single space character (`prevSpace` records whether the previous character
belonged to a run already emitted as `' '`). -/
def collapseWsAux (prevSpace : Bool) : List Char → List Char
  | [] => []
  | c :: rest =>
    if isPySpace c then
      if prevSpace then collapseWsAux true rest
      else ' ' :: collapseWsAux true rest
    else c :: collapseWsAux false rest

def collapseWs (l : List Char) : List Char := collapseWsAux false l

/-- `str.split()` with no arguments: split on maximal whitespace runs,
discarding empty pieces (`acc` holds the reversed current word). -/
def splitWsAux (acc : List Char) : List Char → List (List Char)
  | [] => if acc.isEmpty then [] else [acc.reverse]
  | c :: rest =>
    if isPySpace c then
      if acc.isEmpty then splitWsAux [] rest
      else acc.reverse :: splitWsAux [] rest
    else splitWsAux (c :: acc) rest

def splitWsChars (l : List Char) : List (List Char) := splitWsAux [] l

/-- `' '.join(words)` over character lists. -/
def joinWords : List (List Char) → List Char
  | [] => []
  | [w] => w
  | w :: rest => w ++ ' ' :: joinWords rest

/-- Test whether `pat` occurs as a prefix of `l`. -/
def leadsWith : List Char → List Char → Bool
  | [], _ => true
  | _ :: _, [] => false
  | p :: ps, c :: cs => p = c && leadsWith ps cs

/-- Index of the first occurrence of `pat` in `l` (Python `str.find`,
returning `none` for `-1`). -/
def findSubAux (pat : List Char) : List Char → Nat → Option Nat
  | [], i => if pat = [] then some i else none
  | c :: cs, i => if leadsWith pat (c :: cs) then some i else findSubAux pat cs (i + 1)

/-- Python `s.find(pat)`. -/
def pyFindSub (s pat : String) : Option Nat := findSubAux pat.data s.data 0

/-- Python `s.find(pat, start)`. -/
def pyFindSubFrom (s pat : String) (start : Nat) : Option Nat :=
  (findSubAux pat.data (s.data.drop start) 0).map (· + start)

/-- Python substring membership `pat in s`. -/
def pySubstr (pat s : String) : Bool := (pyFindSub s pat).isSome

/-- Python `s.find(ch)` for a single character. -/
def pyFindChar (l : List Char) (ch : Char) : Option Nat := l.findIdx? (· = ch)

/-- Python `s.rfind(ch)` for a single character. -/
def pyRFindChar (l : List Char) (ch : Char) : Option Nat :=
  (l.reverse.findIdx? (· = ch)).map (fun i => l.length - 1 - i)

/-- Python slice `s[a:b]`. -/
def pySlice (l : List Char) (a b : Nat) : List Char := (l.drop a).take (b - a)

/-- Convert a list to its set of distinct elements, keeping first
occurrences (models iteration-free uses of Python `set`). -/
def dedupAux [DecidableEq A] (seen : List A) : List A → List A
  | [] => []
  | a :: rest =>
    if seen.contains a then dedupAux seen rest
    else a :: dedupAux (a :: seen) rest

def dedupKeepFirst [DecidableEq A] (l : List A) : List A := dedupAux [] l

/-! ## Text Normalizer (`app/services/text_processor.py::preprocess_text`) -/

/-- The hard-coded fallback stop-word list of `text_processor.py`
(the `except ImportError` branch). -/
def basicStopWords : List String :=
  ["the", "a", "an", "and", "or", "but", "in", "on", "at", "to", "for",
   "of", "with", "by", "is", "are", "was", "were", "be", "been", "have",
   "has", "had", "do", "does", "did", "will", "would", "could", "should"]

/-- Token filter shared by both configurations:
`token not in STOP_WORDS and len(token) > 2`. -/
def keepToken (stop : List String) (w : List Char) : Bool :=
  !(stop.contains (String.mk w)) && decide (2 < w.length)

/-- `preprocess_text` in the stemmer-unavailable fallback configuration
(`NLTK_AVAILABLE = False`): lowercase, strip, punctuation→space, collapse
whitespace, split, drop stop-words and short tokens, join. -/
def preprocessBasicCore (l : List Char) : List Char :=
  let t1 := pyStripChars (pyLowerChars l)
  let t2 := collapseWs (subNonWordSpace t1)
  joinWords ((splitWsChars t2).filter (keepToken basicStopWords))

/-- `preprocess_text` (fallback configuration) on `String`s, including the
`if not text: return ""` guard. -/
def preprocessBasic (s : String) : String :=
  if s = "" then "" else String.mk (preprocessBasicCore s.data)

/-! ## Porter stemmer (model of `nltk.stem.PorterStemmer`, NLTK_EXTENSIONS mode)

`text_processor.py` stems tokens with `nltk.stem.PorterStemmer` when NLTK is
installed.  NLTK is a third-party library, so the stemmer below is modelled
from NLTK's `porter.py` (its default `NLTK_EXTENSIONS` mode): the irregular
pool, the length-`≤ 2` guard, and steps 1a, 1b, 1c, 2, 3, 4, 5a, 5b. -/

def porterVowels : List Char := ['a', 'e', 'i', 'o', 'u']

/-- NLTK `_is_consonant(word, i)`: `y` is a consonant at position 0 and
after a consonant elsewhere. -/
def isConsonant (w : List Char) : Nat → Bool
  | 0 =>
    match w.get? 0 with
    | none => false
    | some c => !(porterVowels.contains c)
  | i + 1 =>
    match w.get? (i + 1) with
    | none => false
    | some c =>
      if porterVowels.contains c then false
      else if c = 'y' then !(isConsonant w i)
      else true

/-- Count of vowel-consonant transitions (NLTK `_measure`). -/
def countVC : List Bool → Nat
  | false :: true :: rest => 1 + countVC (true :: rest)
  | _ :: rest => countVC rest
  | [] => 0

/-- The consonant/vowel pattern of a word (`true` = consonant). -/
def cvPattern (w : List Char) : List Bool := (List.range w.length).map (isConsonant w)

/-- NLTK `_measure`. -/
def pMeasure (w : List Char) : Nat := countVC (cvPattern w)

/-- NLTK `_contains_vowel`. -/
def containsVowel (w : List Char) : Bool :=
  (List.range w.length).any fun i => !(isConsonant w i)

/-- NLTK `_ends_double_consonant`. -/
def endsDoubleConsonant (w : List Char) : Bool :=
  decide (2 ≤ w.length) && w.get? (w.length - 1) = w.get? (w.length - 2) &&
    isConsonant w (w.length - 1)

/-- Last character of a word, or `'*'` for the empty word. -/
def lastCharD (w : List Char) : Char := w.getLastD '*'

/-- NLTK `_ends_cvc` (with the length-2 NLTK extension). -/
def endsCVC (w : List Char) : Bool :=
  (decide (3 ≤ w.length) && isConsonant w (w.length - 3) &&
      !(isConsonant w (w.length - 2)) && isConsonant w (w.length - 1) &&
      !(['w', 'x', 'y'].contains (lastCharD w)))
  || (decide (w.length = 2) && !(isConsonant w 0) && isConsonant w 1)

/-- `word.endswith(suffix)`. -/
def endsWithSuf (w suf : List Char) : Bool := leadsWith suf.reverse w.reverse

/-- `word[:-n]`. -/
def chopSuf (w : List Char) (n : Nat) : List Char := w.take (w.length - n)

/-- NLTK `_apply_rule_list`: first rule whose suffix matches wins; if its
condition fails the word is returned unchanged. -/
def applyRules (w : List Char) : List (String × String × Option (List Char → Bool)) → List Char
  | [] => w
  | (suf, rep, cond) :: rest =>
    if endsWithSuf w suf.data then
      let stem := chopSuf w suf.data.length
      match cond with
      | none => stem ++ rep.data
      | some f => if f stem then stem ++ rep.data else w
    else applyRules w rest

/-- NLTK `_step1a` (with the `ies`/length-4 extension). -/
def step1a (w : List Char) : List Char :=
  if endsWithSuf w "ies".data && decide (w.length = 4) then chopSuf w 3 ++ "ie".data
  else
    applyRules w
      [("sses", "ss", none), ("ies", "i", none), ("ss", "ss", none), ("s", "", none)]

/-- The rule list applied to the intermediate stem in NLTK `_step1b`. -/
def step1bPost (istem : List Char) : List Char :=
  if endsWithSuf istem "at".data then istem ++ "e".data
  else if endsWithSuf istem "bl".data then istem ++ "e".data
  else if endsWithSuf istem "iz".data then istem ++ "e".data
  else if endsDoubleConsonant istem then
    if !(['l', 's', 'z'].contains (lastCharD istem)) then chopSuf istem 1
    else istem
  else if pMeasure istem = 1 && endsCVC istem then istem ++ "e".data
  else istem

/-- NLTK `_step1b` (with the `ied` extension). -/
def step1b (w : List Char) : List Char :=
  if endsWithSuf w "ied".data then
    if w.length = 4 then chopSuf w 3 ++ "ie".data else chopSuf w 3 ++ "i".data
  else if endsWithSuf w "eed".data then
    (if 0 < pMeasure (chopSuf w 3) then chopSuf w 3 ++ "ee".data else w)
  else if endsWithSuf w "ed".data && containsVowel (chopSuf w 2) then step1bPost (chopSuf w 2)
  else if endsWithSuf w "ing".data && containsVowel (chopSuf w 3) then step1bPost (chopSuf w 3)
  else w

/-- NLTK `_step1c` (extension condition: `y` preceded by a consonant in a
stem of length `> 1`). -/
def step1c (w : List Char) : List Char :=
  if endsWithSuf w "y".data then
    let stem := chopSuf w 1
    if decide (1 < stem.length) && isConsonant stem (stem.length - 1) then stem ++ "i".data
    else w
  else w

/-- The measure-positive condition used throughout steps 2 and 3. -/
def posMeasure : Option (List Char → Bool) := some fun stem => 0 < pMeasure stem

/-- The step-2 rule list of NLTK (`NLTK_EXTENSIONS` variant: `bli`→`ble`,
plus `fulli`→`ful` and the `logi`→`log` rule whose condition looks at
`word[:-3]`). -/
def step2Rules (w : List Char) : List (String × String × Option (List Char → Bool)) :=
  [("ational", "ate", posMeasure), ("tional", "tion", posMeasure),
   ("enci", "ence", posMeasure), ("anci", "ance", posMeasure),
   ("izer", "ize", posMeasure), ("bli", "ble", posMeasure),
   ("alli", "al", posMeasure), ("entli", "ent", posMeasure),
   ("eli", "e", posMeasure), ("ousli", "ous", posMeasure),
   ("ization", "ize", posMeasure), ("ation", "ate", posMeasure),
   ("ator", "ate", posMeasure), ("alism", "al", posMeasure),
   ("iveness", "ive", posMeasure), ("fulness", "ful", posMeasure),
   ("ousness", "ous", posMeasure), ("aliti", "al", posMeasure),
   ("iviti", "ive", posMeasure), ("biliti", "ble", posMeasure),
   ("fulli", "ful", posMeasure),
   ("logi", "log", some fun _ => 0 < pMeasure (chopSuf w 3))]

/-- NLTK `_step2`, fuelled to express its self-recursion on the
`alli`-with-positive-measure extension (the recursion strictly shrinks the
word, so the fuel `w.length + 1` is never exhausted). -/
def step2Go : Nat → List Char → List Char
  | 0, w => w
  | fuel + 1, w =>
    if endsWithSuf w "alli".data && 0 < pMeasure (chopSuf w 4) then
      step2Go fuel (chopSuf w 4 ++ "al".data)
    else applyRules w (step2Rules w)

def step2 (w : List Char) : List Char := step2Go (w.length + 1) w

/-- NLTK `_step3`. -/
def step3 (w : List Char) : List Char :=
  applyRules w
    [("icate", "ic", posMeasure), ("ative", "", posMeasure),
     ("alize", "al", posMeasure), ("iciti", "ic", posMeasure),
     ("ical", "ic", posMeasure), ("ful", "", posMeasure),
     ("ness", "", posMeasure)]

/-- The measure-greater-than-one condition of step 4. -/
def gt1Measure : Option (List Char → Bool) := some fun stem => 1 < pMeasure stem

/-- NLTK `_step4`. -/
def step4 (w : List Char) : List Char :=
  applyRules w
    [("al", "", gt1Measure), ("ance", "", gt1Measure), ("ence", "", gt1Measure),
     ("er", "", gt1Measure), ("ic", "", gt1Measure), ("able", "", gt1Measure),
     ("ible", "", gt1Measure), ("ant", "", gt1Measure), ("ement", "", gt1Measure),
     ("ment", "", gt1Measure), ("ent", "", gt1Measure),
     ("ion", "", some fun stem =>
        1 < pMeasure stem && (lastCharD stem = 's' || lastCharD stem = 't')),
     ("ou", "", gt1Measure), ("ism", "", gt1Measure), ("ate", "", gt1Measure),
     ("iti", "", gt1Measure), ("ous", "", gt1Measure), ("ive", "", gt1Measure),
     ("ize", "", gt1Measure)]

/-- NLTK `_step5a`. -/
def step5a (w : List Char) : List Char :=
  if endsWithSuf w "e".data then
    let stem := chopSuf w 1
    if 1 < pMeasure stem then stem
    else if pMeasure stem = 1 && !(endsCVC stem) then stem
    else w
  else w

/-- NLTK `_step5b`. -/
def step5b (w : List Char) : List Char :=
  if 1 < pMeasure w && endsDoubleConsonant w && endsWithSuf w "l".data then chopSuf w 1
  else w

/-- NLTK's irregular-form pool (`NLTK_EXTENSIONS`). -/
def porterPool : List (String × String) :=
  [("sky", "sky"), ("skies", "sky"), ("dying", "die"), ("lying", "lie"),
   ("tying", "tie"), ("news", "news"), ("innings", "inning"), ("inning", "inning"),
   ("outings", "outing"), ("outing", "outing"), ("cannings", "canning"),
   ("canning", "canning"), ("howe", "howe"), ("proceed", "proceed"),
   ("exceed", "exceed"), ("succeed", "succeed")]

/-- NLTK `PorterStemmer.stem` on an already-lowercased word: pool lookup,
the length-`≤ 2` guard, then steps 1a–5b. -/
def porterStem (w : List Char) : List Char :=
  match porterPool.find? (fun p => p.1.data = w) with
  | some p => p.2.data
  | none =>
    if w.length ≤ 2 then w
    else step5b (step5a (step4 (step3 (step2 (step1c (step1b (step1a w)))))))

/-- The NLTK English stop-word list (`stopwords.words('english')`), modelled
from the NLTK data distribution.  The contraction entries of that list
(`you're`, `don't`, …) are omitted: at the only call site the tokens have
already had all punctuation replaced by spaces, so a token can never contain
an apostrophe and those entries can never match. -/
def nltkStopWords : List String :=
  ["i", "me", "my", "myself", "we", "our", "ours", "ourselves", "you",
   "your", "yours", "yourself", "yourselves", "he", "him", "his", "himself",
   "she", "her", "hers", "herself", "it", "its", "itself", "they", "them",
   "their", "theirs", "themselves", "what", "which", "who", "whom", "this",
   "that", "these", "those", "am", "is", "are", "was", "were", "be", "been",
   "being", "have", "has", "had", "having", "do", "does", "did", "doing",
   "a", "an", "the", "and", "but", "if", "or", "because", "as", "until",
   "while", "of", "at", "by", "for", "with", "about", "against", "between",
   "into", "through", "during", "before", "after", "above", "below", "to",
   "from", "up", "down", "in", "out", "on", "off", "over", "under", "again",
   "further", "then", "once", "here", "there", "when", "where", "why", "how",
   "all", "any", "both", "each", "few", "more", "most", "other", "some",
   "such", "no", "nor", "not", "only", "own", "same", "so", "than", "too",
   "very", "s", "t", "can", "will", "just", "don", "should", "now", "d",
   "ll", "m", "o", "re", "ve", "y", "ain", "aren", "couldn", "didn",
   "doesn", "hadn", "hasn", "haven", "isn", "ma", "mightn", "mustn",
   "needn", "shan", "shouldn", "wasn", "weren", "won", "wouldn"]

/-- `preprocess_text` in the NLTK configuration (`NLTK_AVAILABLE = True`):
same lowercasing/regex steps, then `word_tokenize`, stop-word and length
filtering, and Porter stemming of the surviving tokens.  At this call site
the text contains only word characters and spaces (all punctuation was
replaced by `' '`), on which `nltk.word_tokenize` coincides with
whitespace splitting. -/
def nltkPreprocessCore (l : List Char) : List Char :=
  let t1 := pyStripChars (pyLowerChars l)
  let t2 := collapseWs (subNonWordSpace t1)
  joinWords (((splitWsChars t2).filter (keepToken nltkStopWords)).map porterStem)

/-- `preprocess_text` (NLTK configuration) on `String`s. -/
def preprocessNltk (s : String) : String :=
  if s = "" then "" else String.mk (nltkPreprocessCore s.data)

/-! ## JSON values (model of Python `dict`/`json`) -/

/-- Parsed JSON values.  Python objects are insertion-ordered association
lists (`dict`); numbers are modelled as rationals. -/
inductive Json where
  | null : Json
  | jbool : Bool → Json
  | jnum : ℚ → Json
  | jstr : String → Json
  | jarr : List Json → Json
  | jobj : List (String × Json) → Json
deriving Repr

/-- `d.get(k)` on an object's field list (first — and only — binding wins;
the parser keeps bindings key-unique like a Python `dict`). -/
def jsonLookup (fs : List (String × Json)) (k : String) : Option Json :=
  (fs.find? (fun p => p.1 = k)).map (fun p => p.2)

/-- `k in d`. -/
def jsonHasKey (fs : List (String × Json)) (k : String) : Bool :=
  (jsonLookup fs k).isSome

/-- `d.get(k, default)`. -/
def jsonGetD (fs : List (String × Json)) (k : String) (d : Json) : Json :=
  (jsonLookup fs k).getD d

/-- `d[k] = v` on a Python `dict`: replace in place if the key exists,
else append. -/
def objInsert (fs : List (String × Json)) (k : String) (v : Json) : List (String × Json) :=
  if fs.any (fun p => p.1 = k) then fs.map (fun p => if p.1 = k then (k, v) else p)
  else fs ++ [(k, v)]

/-- Python truthiness (`bool(x)`) of a JSON value. -/
def jsonTruthy : Json → Bool
  | .null => false
  | .jbool b => b
  | .jnum q => decide (q ≠ 0)
  | .jstr s => s ≠ ""
  | .jarr xs => !xs.isEmpty
  | .jobj fs => !fs.isEmpty

/-! ### JSON parser (model of `json.loads`)

Strings are ASCII/BMP: `\uXXXX` escapes denoting surrogates are rejected
(a modelling restriction; no embedded input uses them). -/

/-- JSON insignificant whitespace. -/
def skipWsJ (l : List Char) : List Char :=
  l.dropWhile fun c => c = ' ' || c = '\t' || c = '\n' || c = '\x0d'

/-- Value of one hexadecimal digit (for the `\uXXXX` escapes accepted by
`json.loads`), written over the character code to keep the comparison chain
first-order: digits are codes 48-57, lowercase a-f are 97-102, uppercase
A-F are 65-70. -/
def hexVal (c : Char) : Option Nat :=
  match c.toNat with
  | n =>
    if 48 ≤ n ∧ n ≤ 57 then some (n - 48)
    else if 97 ≤ n ∧ n ≤ 102 then some (n - 87)
    else if 65 ≤ n ∧ n ≤ 70 then some (n - 55)
    else none

/-- Body of a JSON string literal (after the opening quote); returns the
decoded characters and the input after the closing quote. -/
def parseJStringAux (acc : List Char) : List Char → Option (List Char × List Char)
  | [] => none
  | '"' :: rest => some (acc.reverse, rest)
  | '\\' :: rest =>
    match rest with
    | [] => none
    | e :: rest2 =>
      if e = '"' then parseJStringAux ('"' :: acc) rest2
      else if e = '\\' then parseJStringAux ('\\' :: acc) rest2
      else if e = '/' then parseJStringAux ('/' :: acc) rest2
      else if e = 'b' then parseJStringAux ('\x08' :: acc) rest2
      else if e = 'f' then parseJStringAux ('\x0c' :: acc) rest2
      else if e = 'n' then parseJStringAux ('\n' :: acc) rest2
      else if e = 'r' then parseJStringAux ('\x0d' :: acc) rest2
      else if e = 't' then parseJStringAux ('\t' :: acc) rest2
      else if e = 'u' then
        match rest2 with
        | h1 :: h2 :: h3 :: h4 :: rest3 =>
          match hexVal h1, hexVal h2, hexVal h3, hexVal h4 with
          | some a, some b, some c, some d =>
            let n := ((a * 16 + b) * 16 + c) * 16 + d
            if 0xd800 ≤ n && n < 0xe000 then none
            else parseJStringAux (Char.ofNat n :: acc) rest3
          | _, _, _, _ => none
        | _ => none
      else none
  | c :: rest => if c.toNat < 0x20 then none else parseJStringAux (c :: acc) rest

def digitsToNat (l : List Char) : Nat :=
  l.foldl (fun n c => n * 10 + (c.toNat - '0'.toNat)) 0

/-- JSON number grammar, producing an exact rational. -/
def parseJNumber (l : List Char) : Option (ℚ × List Char) :=
  let (neg, l1) : Bool × List Char := match l with
    | '-' :: r => (true, r)
    | _ => (false, l)
  let ds := l1.takeWhile Char.isDigit
  let r2 := l1.dropWhile Char.isDigit
  if ds.isEmpty then none
  else if ds.head? = some '0' && 1 < ds.length then none
  else
    let intPart : ℚ := (digitsToNat ds : ℚ)
    let fracStep : Option (ℚ × List Char) := match r2 with
      | '.' :: r3 =>
        let fs := r3.takeWhile Char.isDigit
        if fs.isEmpty then none
        else some (intPart + (digitsToNat fs : ℚ) / ((10 : ℚ) ^ fs.length),
                   r3.dropWhile Char.isDigit)
      | _ => some (intPart, r2)
    match fracStep with
    | none => none
    | some (mant, r4) =>
      let expStep : Option (ℚ × List Char) := match r4 with
        | 'e' :: r5 | 'E' :: r5 =>
          let (eneg, r6) : Bool × List Char := match r5 with
            | '+' :: r7 => (false, r7)
            | '-' :: r7 => (true, r7)
            | _ => (false, r5)
          let es := r6.takeWhile Char.isDigit
          if es.isEmpty then none
          else
            let e := digitsToNat es
            some ((if eneg then mant / (10 : ℚ) ^ e else mant * (10 : ℚ) ^ e),
                  r6.dropWhile Char.isDigit)
        | _ => some (mant, r4)
      match expStep with
      | none => none
      | some (v, r8) => some ((if neg then -v else v), r8)

/-- Parser modes: a value, the members of an array after `[`, or the
members of an object after `{` (with the fields accumulated so far). -/
inductive PMode where
  | value
  | arrayRest
  | objRest (acc : List (String × Json))

/-- Fuelled JSON grammar (the fuel bounds recursion depth; the caller
supplies more fuel than the input length, so it is never exhausted).
`arrayRest` returns a `jarr`, `objRest` a `jobj`. -/
def parseJ : PMode → Nat → List Char → Option (Json × List Char)
  | _, 0, _ => none
  | .value, fuel + 1, l =>
    (match skipWsJ l with
     | 'n' :: 'u' :: 'l' :: 'l' :: r => some (.null, r)
     | 't' :: 'r' :: 'u' :: 'e' :: r => some (.jbool true, r)
     | 'f' :: 'a' :: 'l' :: 's' :: 'e' :: r => some (.jbool false, r)
     | '"' :: r => (parseJStringAux [] r).map fun p => (.jstr (String.mk p.1), p.2)
     | '[' :: r =>
       (match skipWsJ r with
        | ']' :: r2 => some (.jarr [], r2)
        | r2 => parseJ .arrayRest fuel r2)
     | '\x7b' :: r =>
       (match skipWsJ r with
        | '\x7d' :: r2 => some (.jobj [], r2)
        | r2 => parseJ (.objRest []) fuel r2)
     | l2 => (parseJNumber l2).map fun p => (.jnum p.1, p.2))
  | .arrayRest, fuel + 1, l =>
    (match parseJ .value fuel l with
     | none => none
     | some (v, r) =>
       match skipWsJ r with
       | ',' :: r2 =>
         (match parseJ .arrayRest fuel (skipWsJ r2) with
          | some (.jarr vs, r3) => some (.jarr (v :: vs), r3)
          | _ => none)
       | ']' :: r2 => some (.jarr [v], r2)
       | _ => none)
  | .objRest acc, fuel + 1, l =>
    (match l with
     | '"' :: r =>
       (match parseJStringAux [] r with
        | none => none
        | some (kcs, r1) =>
          match skipWsJ r1 with
          | ':' :: r2 =>
            (match parseJ .value fuel (skipWsJ r2) with
             | none => none
             | some (v, r3) =>
               let acc2 := objInsert acc (String.mk kcs) v
               match skipWsJ r3 with
               | ',' :: r4 => parseJ (.objRest acc2) fuel (skipWsJ r4)
               | '\x7d' :: r4 => some (.jobj acc2, r4)
               | _ => none)
          | _ => none)
     | _ => none)

/-- `json.loads` model: parse one JSON value surrounded by optional
whitespace, failing (`none` ≙ `json.JSONDecodeError`) otherwise. -/
def pyJsonLoads (s : String) : Option Json :=
  match parseJ .value (s.data.length + 1) s.data with
  | some (v, r) => if skipWsJ r = [] then some v else none
  | none => none

/-! ### JSON serializer (model of `json.dumps` with its defaults:
`ensure_ascii=True`, separators `", "` and `": "`).  Numbers only occur as
integers in every serialized value of this development. -/

def hexDigitChar (n : Nat) : Char := "0123456789abcdef".data.getD n '0'

/-- `\uXXXX` escape for a code unit. -/
def uEscape (n : Nat) : List Char :=
  ['\\', 'u', hexDigitChar (n / 4096 % 16), hexDigitChar (n / 256 % 16),
   hexDigitChar (n / 16 % 16), hexDigitChar (n % 16)]

/-- Escape one character the way `json.dumps` does with `ensure_ascii=True`
(non-ASCII goes to `\uXXXX`, astral characters to surrogate pairs). -/
def jsonEscapeChar (c : Char) : List Char :=
  if c = '"' then ['\\', '"']
  else if c = '\\' then ['\\', '\\']
  else if c = '\n' then ['\\', 'n']
  else if c = '\x0d' then ['\\', 'r']
  else if c = '\t' then ['\\', 't']
  else if c = '\x08' then ['\\', 'b']
  else if c = '\x0c' then ['\\', 'f']
  else if c.toNat < 0x20 then uEscape c.toNat
  else if c.toNat ≤ 0x7e then [c]
  else if c.toNat ≤ 0xffff then uEscape c.toNat
  else
    uEscape (0xd800 + (c.toNat - 0x10000) / 0x400) ++
      uEscape (0xdc00 + (c.toNat - 0x10000) % 0x400)

/-- A JSON string literal for `s`. -/
def dumpJString (s : String) : List Char :=
  '"' :: s.data.flatMap jsonEscapeChar ++ ['"']

/-- Decimal digits of a natural number. -/
def natDigits (n : Nat) : List Char :=
  (Nat.toDigits 10 n)

/-- Serialize a rational that is an integer (the only case `json.dumps`
meets in this development). -/
def dumpJNum (q : ℚ) : List Char :=
  if q < 0 then '-' :: natDigits (-q.num).toNat else natDigits q.num.toNat

mutual

def jsonDumpVal : Json → List Char
  | .null => "null".data
  | .jbool true => "true".data
  | .jbool false => "false".data
  | .jnum q => dumpJNum q
  | .jstr s => dumpJString s
  | .jarr xs => '[' :: jsonDumpList xs ++ [']']
  | .jobj fs => '\x7b' :: jsonDumpFields fs ++ ['\x7d']

def jsonDumpList : List Json → List Char
  | [] => []
  | [x] => jsonDumpVal x
  | x :: y :: rest => jsonDumpVal x ++ ',' :: ' ' :: jsonDumpList (y :: rest)

def jsonDumpFields : List (String × Json) → List Char
  | [] => []
  | [(k, v)] => dumpJString k ++ ':' :: ' ' :: jsonDumpVal v
  | (k, v) :: p :: rest =>
    dumpJString k ++ ':' :: ' ' :: jsonDumpVal v ++ ',' :: ' ' :: jsonDumpFields (p :: rest)

end

/-- `json.dumps` model. -/
def pyJsonDumps (v : Json) : String := String.mk (jsonDumpVal v)

/-! ## Structured-Data Extractor

`ollama_service.py::_clean_json_response`,
`badge_generator.py::extract_json_from_response`,
`routers/badges.py::_normalize_badge_json` and the fence-aware extraction
of `routers/badges.py::generate_badge_stream`. -/

/-- `re.sub(lit + r'\s*', '', s)` for a literal `lit`: remove every
occurrence of `lit` together with the whitespace run following it,
scanning left to right without overlap.  The fuel `l.length + 1` bounds the
scan and is never exhausted for nonempty `lit`. -/
def subLitWsGo (pat : List Char) : Nat → List Char → List Char
  | 0, l => l
  | _, [] => []
  | fuel + 1, c :: r =>
    if leadsWith pat (c :: r) then
      subLitWsGo pat fuel (((c :: r).drop pat.length).dropWhile isPySpace)
    else c :: subLitWsGo pat fuel r

def subLitWs (pat l : List Char) : List Char := subLitWsGo pat (l.length + 1) l

/-- `response_text[:200] + "..." if len(response_text) > 200 else response_text`. -/
def pyTruncate200 (s : String) : String :=
  if 200 < s.data.length then String.mk (s.data.take 200) ++ "..." else s

/-- The markdown-fence stripping prefix of `_clean_json_response`
(the three `re.sub` passes). -/
def fenceStripped (s : String) : String :=
  String.mk (subLitWs "`".data (subLitWs "```".data (subLitWs "```json".data s.data)))

/-- The sentinel text `_clean_json_response` produces when JSON parsing
fails: `json.dumps` of an error marker plus a 200-character preview. -/
def cleanSentinel (t : String) : String :=
  pyJsonDumps (.jobj
    [("error", .jstr "Failed to generate valid JSON"),
     ("raw_response", .jstr (pyTruncate200 t))])

/-- `ollama_service.py::OllamaService._clean_json_response`: strip markdown
fences, locate the outermost `{`…`}` span, validate it with `json.loads`,
fall back to parsing the stripped text, and on any parse failure return the
sentinel structure (the only exception reachable inside the `try` is
`json.JSONDecodeError` from the two `json.loads` calls, which the `except`
clause catches, so the function is total). -/
def cleanJsonResponse (s : String) : String :=
  let t2 := (fenceStripped s).data
  let whole :=
    match pyJsonLoads (pyStrip (String.mk t2)) with
    | some _ => pyStrip (String.mk t2)
    | none => cleanSentinel (String.mk t2)
  match pyFindChar t2 '\x7b', pyRFindChar t2 '\x7d' with
  | some si, some ei =>
    if si < ei then
      let js := String.mk (pySlice t2 si (ei + 1))
      match pyJsonLoads js with
      | some _ => js
      | none => cleanSentinel (String.mk t2)
    else whole
  | _, _ => whole

/-- Deterministic matcher for the regex `\{[^{}]*(?:\{[^{}]*\}[^{}]*)*\}`
at the current position: an object span with at most one level of brace
nesting.  (The regex is deterministic here because a group can start only
with `{` and the closing branch only with `}`.) -/
def p1NonBrace (c : Char) : Bool := c ≠ '\x7b' && c ≠ '\x7d'

def p1Loop (acc : List Char) : Nat → List Char → Option (List Char × List Char)
  | 0, _ => none
  | _, [] => none
  | fuel + 1, c :: r =>
    if c = '\x7d' then some (acc ++ ['\x7d'], r)
    else if c = '\x7b' then
      let a := r.takeWhile p1NonBrace
      match r.dropWhile p1NonBrace with
      | '\x7d' :: r2 =>
        let b := r2.takeWhile p1NonBrace
        p1Loop (acc ++ '\x7b' :: a ++ '\x7d' :: b) fuel (r2.dropWhile p1NonBrace)
      | _ => none
    else none

def matchP1At : List Char → Option (List Char × List Char)
  | '\x7b' :: r =>
    p1Loop ('\x7b' :: r.takeWhile p1NonBrace) (r.length + 1) (r.dropWhile p1NonBrace)
  | _ => none

/-- `re.findall(r'\{[^{}]*(?:\{[^{}]*\}[^{}]*)*\}', s)`: leftmost
non-overlapping matches. -/
def findAllP1Go : Nat → List Char → List (List Char)
  | 0, _ => []
  | _, [] => []
  | fuel + 1, c :: r =>
    match matchP1At (c :: r) with
    | some (m, rest) => m :: findAllP1Go fuel rest
    | none => findAllP1Go fuel r

def findAllP1 (l : List Char) : List (List Char) := findAllP1Go (l.length + 1) l

/-- `re.findall(r'\{.*\}', s, re.DOTALL)`: with the greedy dot the only
possible match runs from the first `{` that precedes the last `}` up to
that last `}`. -/
def findAllP2 (l : List Char) : List (List Char) :=
  match pyRFindChar l '\x7d' with
  | none => []
  | some j =>
    match pyFindChar (l.take j) '\x7b' with
    | none => []
    | some i => [pySlice l i (j + 1)]

/-- `for match in matches: try: return json.loads(match.strip())`. -/
def firstParsed : List (List Char) → Option Json
  | [] => none
  | m :: rest =>
    match pyJsonLoads (pyStrip (String.mk m)) with
    | some v => some v
    | none => firstParsed rest

/-- `badge_generator.py::extract_json_from_response`: direct parse of the
stripped text, then the two regex fallbacks, then the sentinel object with
the full raw input (every `json.loads` failure is caught, so the function
is total). -/
def extractJsonFromResponse (s : String) : Json :=
  if pyStrip s = "" then .jobj []
  else
    match pyJsonLoads (pyStrip s) with
    | some v => v
    | none =>
      match firstParsed (findAllP1 s.data) with
      | some v => v
      | none =>
        match firstParsed (findAllP2 s.data) with
        | some v => v
        | none => .jobj [("error", .jstr "json_extraction_failed"), ("raw_response", .jstr s)]

/-- `routers/badges.py::_normalize_badge_json`: non-dicts become `{}`; a
string-valued `criteria` is wrapped as `{"narrative": <string>}`; a
dict-valued `criteria` is kept; anything else (including an absent key)
becomes `{"narrative": ""}`. -/
def normalizeBadgeJson : Json → Json
  | .jobj fs =>
    (match jsonLookup fs "criteria" with
     | some (.jstr c) => .jobj (objInsert fs "criteria" (.jobj [("narrative", .jstr c)]))
     | some (.jobj _) => .jobj fs
     | _ => .jobj (objInsert fs "criteria" (.jobj [("narrative", .jstr "")])))
  | _ => .jobj []

/-- The fence-aware extraction of `routers/badges.py::generate_badge_stream`
(final-chunk handler): the text between ` ```json ` and the next ` ``` ` is
parsed when both fences exist (`json.JSONDecodeError` escapes as an error
chunk), otherwise `extract_json_from_response` is used. -/
def routerExtractBadgeJson (raw : String) : Except String Json :=
  match pyFindSub raw "```json" with
  | some js =>
    (match pyFindSubFrom raw "```" (js + 7) with
     | some je =>
       (match pyJsonLoads (pyStrip (String.mk (pySlice raw.data (js + 7) je))) with
        | some v => .ok v
        | none => .error "Failed to parse JSON from response")
     | none => .ok (extractJsonFromResponse raw))
  | none => .ok (extractJsonFromResponse raw)

/-- `app/models/badge.py::BadgeValidated` (the pydantic model the router
fills from the normalized JSON). -/
structure BadgeValidated where
  badge_name : String
  badge_description : String
  criteria : Json
  raw_model_output : String
deriving Repr

/-- `badge_json.get(k, "")` coerced to the `str` fields of `BadgeValidated`;
a non-string value would be rejected by pydantic (not exercised here). -/
def getStrField (fs : List (String × Json)) (k : String) : Option String :=
  match jsonLookup fs k with
  | none => some ""
  | some (.jstr v) => some v
  | some _ => none

/-- The router's final-chunk pipeline on the accumulated raw text, up to the
validated badge: fence-aware extraction, `_normalize_badge_json`, then
`BadgeValidated(badge_name=…get("badge_name",""), badge_description=…,
criteria=…get("criteria",{}))`.  (The `selected_parameters` /
`processed_course_input` keys the router also inserts touch neither of the
three schema keys and are omitted.) -/
def routerFinalBadge (raw : String) : Except String BadgeValidated :=
  match routerExtractBadgeJson raw with
  | .error e => .error e
  | .ok bj =>
    match normalizeBadgeJson bj with
    | .jobj fs =>
      (match getStrField fs "badge_name", getStrField fs "badge_description" with
       | some n, some d =>
         .ok { badge_name := n, badge_description := d,
               criteria := jsonGetD fs "criteria" (.jobj []),
               raw_model_output := raw }
       | _, _ => .error "Badge schema validation error")
    | _ => .error "Badge schema validation error"

/-! ## Request Multiplexer client (`app/services/ollama_client.py`) -/

/-- The events `OllamaClient.generate_stream` yields (the constant fields
`request_id` is omitted; the final event keeps the four usage counters
read with `data.get`). -/
inductive CEvent where
  | token (content accumulated : String)
  | finalEv (content : String) (totalDuration loadDuration promptEvalCount evalCount : Option Json)
  | errorEv (content : String) (errorCode : String)
deriving Repr

/-- Terminal events: `final` and `error`. -/
def CEvent.isTerminal : CEvent → Bool
  | .token _ _ => false
  | _ => true

/-- `data.get(k)` (Python default `None` modelled as `none`). -/
def jsonGetOpt (fs : List (String × Json)) (k : String) : Option Json := jsonLookup fs k

/-- The line loop of `OllamaClient.generate_stream` (lines 43–75): per
nonblank line, `json.loads`; malformed lines are skipped
(`except json.JSONDecodeError: continue`); an object with a `response`
field and falsy `done` yields a token and extends the accumulator; a
truthy `done` yields the final event and breaks.  A parsed non-object
value, or a non-string `response`, raises (`TypeError`/`AttributeError`)
out of the loop into the outer `except Exception`, which yields a single
error event — modelled by the error result with the stop flag.
Returns the yielded events plus whether the loop exited early
(`break` or exception). -/
def clientProcessB : List String → String → List CEvent × Bool
  | [], _ => ([], false)
  | line :: rest, acc =>
    if pyStrip line = "" then clientProcessB rest acc
    else
      match pyJsonLoads line with
      | none => clientProcessB rest acc
      | some (.jobj fs) =>
        let doneTruthy := jsonTruthy (jsonGetD fs "done" (.jbool false))
        if jsonHasKey fs "response" && !doneTruthy then
          match jsonLookup fs "response" with
          | some (.jstr t) =>
            let p := clientProcessB rest (acc ++ t)
            (CEvent.token t (acc ++ t) :: p.1, p.2)
          | _ =>
            ([CEvent.errorEv "Model call failed: unsupported operand" "unexpected_error"], true)
        else if doneTruthy then
          ([CEvent.finalEv acc (jsonGetOpt fs "total_duration") (jsonGetOpt fs "load_duration")
              (jsonGetOpt fs "prompt_eval_count") (jsonGetOpt fs "eval_count")], true)
        else clientProcessB rest acc
      | some _ =>
        ([CEvent.errorEv "Model call failed: line is not an object" "unexpected_error"], true)

/-- Transport-level failures of an HTTP exchange, as the `except` clauses of
`ollama_client.py` distinguish them. -/
inductive NetErr where
  | timeout
  | other (msg : String)
deriving Repr

/-- Outcome of the streaming HTTP exchange: either `raise_for_status`
throws, or some prefix of the response lines is delivered and the
connection then either closes normally or fails. -/
inductive StreamTransport where
  | httpStatusFail (code : Nat) (body : String)
  | lines (ls : List String) (interrupt : Option NetErr)
deriving Repr

/-- `OllamaClient.generate_stream` as a function of the transport outcome:
the line loop, with every transport failure converted by the `except`
clauses into a single trailing error event.  (If the loop already broke —
final event or in-loop exception — no further reads happen, so a recorded
interrupt is unreachable and ignored.) -/
def streamFailEvent : NetErr → CEvent
  | .timeout => CEvent.errorEv "Model request timed out" "timeout"
  | .other msg => CEvent.errorEv ("Model call failed: " ++ msg) "unexpected_error"

def clientGenerateStream : StreamTransport → List CEvent
  | .httpStatusFail code body =>
    [CEvent.errorEv ("Model API error: " ++ toString code ++ " - " ++ body) "http_error"]
  | .lines ls interrupt =>
    let p := clientProcessB ls ""
    if p.2 then p.1
    else
      p.1 ++
        match interrupt with
        | none => []
        | some e => [streamFailEvent e]

/-- A typed exception of the non-streaming call (`fastapi.HTTPException`). -/
structure HttpExc where
  statusCode : Nat
  detail : String
deriving Repr

/-- Outcome of the non-streaming HTTP exchange of `OllamaClient.generate`. -/
inductive GenTransport where
  | success (body : String)
  | timeout
  | httpStatusFail (code : Nat)
  | netFail (msg : String)
deriving Repr

/-- `response.json().get("response", "").strip()` of `OllamaClient.generate`:
a non-JSON body or a non-object/non-string shape raises in the `try` and is
caught by `except Exception` (→ 500). -/
def clientParseGenBody (body : String) : Option String :=
  match pyJsonLoads body with
  | some (.jobj fs) =>
    (match jsonLookup fs "response" with
     | none => some (pyStrip "")
     | some (.jstr t) => some (pyStrip t)
     | some _ => none)
  | _ => none

/-- `OllamaClient.generate`: the response text on success; on failure, the
typed `HTTPException` the `except` clauses raise — 504 for timeouts, 502
for backend HTTP errors, 500 for every other failure. -/
def clientGenerate : GenTransport → Except HttpExc String
  | .success body =>
    (match clientParseGenBody body with
     | some t => .ok t
     | none => .error ⟨500, "Model call failed: bad response body"⟩)
  | .timeout => .error ⟨504, "Model request timed out"⟩
  | .httpStatusFail code => .error ⟨502, "Model API error: " ++ toString code⟩
  | .netFail msg => .error ⟨500, "Model call failed: " ++ msg⟩

/-! ### Well-formed NDJSON streams (spec §6/§8) -/

/-- A line of a well-formed stream: blank, a token line (an object whose
`response` is a string and whose `done` is absent or falsy), a completion
line (truthy `done`), or an object line carrying neither. -/
def WFLine (line : String) : Prop :=
  pyStrip line = "" ∨
  ∃ fs, pyJsonLoads line = some (.jobj fs) ∧
    (jsonTruthy (jsonGetD fs "done" (.jbool false)) = true ∨
     (∃ t, jsonLookup fs "response" = some (.jstr t)) ∨
     jsonHasKey fs "response" = false)

/-- A completion line: a nonblank line that parses to an object with
truthy `done`. -/
def DoneLine (line : String) : Prop :=
  pyStrip line ≠ "" ∧
  ∃ fs, pyJsonLoads line = some (.jobj fs) ∧
    jsonTruthy (jsonGetD fs "done" (.jbool false)) = true

/-- The token events produced from accumulated prefix `acc` and the token
contents `ts`. -/
def tokenEvs (acc : String) : List String → List CEvent
  | [] => []
  | t :: ts => CEvent.token t (acc ++ t) :: tokenEvs (acc ++ t) ts

/-- `"".join(ts)`. -/
def strConcat : List String → String
  | [] => ""
  | t :: ts => t ++ strConcat ts

/-! ## Request Multiplexer slots (`app/services/ollama_service.py`)

`OllamaService.generate` / `generate_stream` both run
`request_id = await self._acquire_slot()` followed by a `try` body whose
`finally` block runs `await self._release_slot(request_id)`.
`_acquire_slot` awaits `self.semaphore.acquire()` (an
`asyncio.Semaphore(MAX_CONCURRENT_REQUESTS)`: it suspends while the free
count is zero, otherwise decrements it) and increments `request_counter`
and `active_requests`; `_release_slot` sets
`active_requests = max(0, active_requests - 1)` and increments the
semaphore.  The scheduler is cooperative and each of these updates runs
without an intervening `await`, so a request's transitions are atomic
steps of the state machine below.  Each request is a thread that is
waiting, running (slot held), or finished; the `finally` block makes the
release step the unique exit for both normal and exceptional completion. -/

inductive ReqPhase where
  | waiting
  | running
  | finished
deriving Repr, DecidableEq

/-- The process-wide multiplexer state plus per-request bookkeeping
(acquire/release counts record how often each request performed the
corresponding slot operation). -/
structure MuxState where
  phases : List ReqPhase
  semFree : Nat
  activeRequests : Nat
  requestCounter : Nat
  acquires : List Nat
  releases : List Nat
deriving Repr, DecidableEq

/-- Initial state: `n` pending requests, `Semaphore(maxC)` full,
no active requests. -/
def muxInit (n maxC : Nat) : MuxState :=
  { phases := List.replicate n .waiting
    semFree := maxC
    activeRequests := 0
    requestCounter := 0
    acquires := List.replicate n 0
    releases := List.replicate n 0 }

/-- `_acquire_slot` for request `i` (enabled only when a permit is free). -/
def muxAcquire (s : MuxState) (i : Nat) : MuxState :=
  { phases := s.phases.set i .running
    semFree := s.semFree - 1
    activeRequests := s.activeRequests + 1
    requestCounter := s.requestCounter + 1
    acquires := s.acquires.set i ((s.acquires.getD i 0) + 1)
    releases := s.releases }

/-- `_release_slot` for request `i` (the `finally` block;
`max(0, active_requests - 1)` is `Nat` subtraction). -/
def muxRelease (s : MuxState) (i : Nat) : MuxState :=
  { phases := s.phases.set i .finished
    semFree := s.semFree + 1
    activeRequests := s.activeRequests - 1
    requestCounter := s.requestCounter
    acquires := s.acquires
    releases := s.releases.set i ((s.releases.getD i 0) + 1) }

/-- One step of the multiplexer: a waiting request acquires a slot when the
semaphore has a free permit, or a running request finishes — normally or
exceptionally — and its `finally` block releases the slot. -/
inductive MuxStep : MuxState → MuxState → Prop
  | acquire (s : MuxState) (i : Nat) :
      s.phases.get? i = some .waiting → 0 < s.semFree →
      MuxStep s (muxAcquire s i)
  | finish (s : MuxState) (i : Nat) (exceptional : Bool) :
      s.phases.get? i = some .running →
      MuxStep s (muxRelease s i)

/-- Reachability from the initial state. -/
def MuxReachable (n maxC : Nat) (s : MuxState) : Prop :=
  Relation.ReflTransGen MuxStep (muxInit n maxC) s

/-! ## Singleton construction (`OllamaService.__new__` / `__init__`)

`OllamaService.__new__` stores the first instance in `cls._instance` and
returns it to every caller; `__init__` runs its body (creating the
semaphore, counters and pool configuration) only while `_initialized` is
false and then sets it.  Both run synchronously (no `await`), so a
construction is one atomic step of the machine below.  `initCount` counts
executions of the `__init__` body, `nextId` allocates object identities. -/

structure SingState where
  instanceId : Option Nat
  initializedFlag : Bool
  initCount : Nat
  nextId : Nat
deriving Repr, DecidableEq

/-- The state before the module-level `ollama_service = OllamaService()`
runs: no instance exists. -/
def singInit : SingState :=
  { instanceId := none, initializedFlag := false, initCount := 0, nextId := 0 }

/-- `__new__`: allocate and remember the instance on first call (setting
`_initialized = False`), return the remembered instance afterwards. -/
def serviceNew (s : SingState) : SingState × Nat :=
  match s.instanceId with
  | none =>
    ({ s with instanceId := some s.nextId, initializedFlag := false,
              nextId := s.nextId + 1 }, s.nextId)
  | some objId => (s, objId)

/-- `__init__`: run the initialization body once, guarded by
`_initialized`. -/
def serviceInitStep (s : SingState) : SingState :=
  if s.initializedFlag then s
  else { s with initCount := s.initCount + 1, initializedFlag := true }

/-- `OllamaService()`: `__new__` then `__init__`. -/
def constructService (s : SingState) : SingState × Nat :=
  let p := serviceNew s
  (serviceInitStep p.1, p.2)

/-- `k` successive constructions, returning the final state and the list of
returned object identities. -/
def runConstructs : Nat → SingState → SingState × List Nat
  | 0, s => (s, [])
  | k + 1, s =>
    let p := constructService s
    let q := runConstructs k p.1
    (q.1, p.2 :: q.2)

/-! ## TF-IDF batch similarity (`app/utils/similarity.py`)

The sklearn vectorizer's numeric kernel (real-valued IDF weights and
cosine values computed with square roots) cannot be embedded exactly, so
it is an abstract parameter; everything proved below is structural and
holds for every kernel.  The vocabulary construction — which decides the
`ValueError("empty vocabulary")` exception path — is modelled concretely
from the vectorizer configuration (`token_pattern=r'\b\w+\b'`,
`ngram_range=(1, 2)`; the `max_features=1000` cap only drops surplus
features and never empties a nonempty vocabulary, so it is not modelled). -/

/-- Abstract numeric kernel of `TfidfVectorizer` + `cosine_similarity`. -/
structure TfidfKernel where
  weight : String → String → ℚ
  cosine : List ℚ → List ℚ → ℚ

/-- `token_pattern=r'\b\w+\b'`: maximal word-character runs. -/
def sklearnTokens (s : String) : List String :=
  ((splitRuns s.data).map String.mk)
where
  splitRuns : List Char → List (List Char)
    | [] => []
    | c :: rest =>
      if !(isWordChar c) then splitRuns rest
      else
        (c :: rest.takeWhile isWordChar) :: splitRuns (rest.dropWhile isWordChar)
  termination_by l => l.length
  decreasing_by
    · simp only [List.length_cons]
      exact Nat.lt_succ_self _
    · simp only [List.length_cons]
      have h : ∀ m : List Char, (m.dropWhile isWordChar).length ≤ m.length := by
        intro m
        induction m with
        | nil => simp
        | cons a as ih =>
          rw [List.dropWhile]
          cases isWordChar a
          · simp
          · exact Nat.le_succ_of_le ih
      exact Nat.lt_succ_of_le (h rest)

/-- Unigrams and bigrams of a token list (`ngram_range=(1, 2)`). -/
def ngrams12 (toks : List String) : List String :=
  toks ++ List.zipWith (fun a b => a ++ " " ++ b) toks toks.tail

/-- The fitted vocabulary over a corpus; `fit_transform` raises
`ValueError("empty vocabulary")` exactly when this is empty. -/
def buildVocabulary (texts : List String) : List String :=
  dedupKeepFirst (texts.flatMap fun t => ngrams12 (sklearnTokens t))

/-- `similarity.py::calculate_batch_similarity`: the empty-query /
empty-documents guard returns `[0.0] * len(documents)`; the `try` body fits
one TF-IDF space over `[query] + documents` and scores each document row
against the query row; the `except` clause (reached when the vectorizer
raises on an empty vocabulary) returns `[0.0] * len(documents)`. -/
def calculateBatchSimilarity (k : TfidfKernel) (query : String) (documents : List String) :
    List ℚ :=
  if query = "" || documents.isEmpty then List.replicate documents.length 0
  else
    let vocab := buildVocabulary (query :: documents)
    if vocab.isEmpty then List.replicate documents.length 0
    else
      let queryVec := vocab.map (k.weight query)
      documents.map fun d => k.cosine queryVec (vocab.map (k.weight d))

/-- `similarity.py::calculate_similarity`: `scores[0] if scores else 0.0`. -/
def calculateSimilarity (k : TfidfKernel) (query document : String) : ℚ :=
  (calculateBatchSimilarity k query [document]).headD 0

/-! ## Keyword-overlap boost (`badge-generator/main.py::IconMatcher._apply_keyword_boost`) -/

/-- `_apply_keyword_boost`: `badge_words` is the set of whitespace-separated
lowercased words of the badge text; each icon's word set is the union of
the split preprocessed keywords; an icon with `keyword_overlap > 0` gets
`min(1.0, score + min(0.3, keyword_overlap * 0.1))`.  The loop runs over
`enumerate(icons_data)` and breaks at `len(similarities)`, so surplus
scores are returned unchanged.  `pp` is the `preprocess_text` used on the
keywords. -/
def boostOverlap (pp : String → String) (badgeText : String) (kws : List String) : Nat :=
  let badgeWords := dedupKeepFirst (((splitWsChars (pyLowerChars badgeText.data))).map String.mk)
  let iconWords := dedupKeepFirst (kws.flatMap fun kw => (splitWsChars (pp kw).data).map String.mk)
  (badgeWords.filter fun w => iconWords.contains w).length

/-- The per-icon update of `_apply_keyword_boost`. -/
def boostOne (pp : String → String) (badgeText : String) (kws : List String) (s : ℚ) : ℚ :=
  if 0 < boostOverlap pp badgeText kws then
    min 1 (s + min (3 / 10 : ℚ) ((boostOverlap pp badgeText kws : ℚ) * (1 / 10 : ℚ)))
  else s

def applyKeywordBoost (pp : String → String) (badgeText : String)
    (iconKeywords : List (List String)) (sims : List ℚ) : List ℚ :=
  List.zipWith (boostOne pp badgeText) iconKeywords sims ++ sims.drop iconKeywords.length

/-! ## Semantic icon retrieval (`app/utils/icon_matcher.py`) -/

/-- `str.replace(pat, rep)` (all occurrences, left to right). -/
def pyReplaceGo (pat rep : List Char) : Nat → List Char → List Char
  | 0, l => l
  | _, [] => []
  | fuel + 1, c :: r =>
    if leadsWith pat (c :: r) then rep ++ pyReplaceGo pat rep fuel ((c :: r).drop pat.length)
    else c :: pyReplaceGo pat rep fuel r

def pyReplace (s pat rep : String) : String :=
  String.mk (pyReplaceGo pat.data rep.data (s.data.length + 1) s.data)

/-- `str.upper()` on one ASCII character. -/
def pyUpperChar (c : Char) : Char :=
  if 'a' ≤ c && c ≤ 'z' then Char.ofNat (c.toNat - 32) else c

/-- `str.title()`: uppercase the first character of each alphabetic run,
lowercase the rest. -/
def pyTitleGo : Bool → List Char → List Char
  | _, [] => []
  | prevAlpha, c :: r =>
    let isAl := ('a' ≤ c && c ≤ 'z') || ('A' ≤ c && c ≤ 'Z')
    (if isAl then (if prevAlpha then pyLowerChar c else pyUpperChar c) else c) ::
      pyTitleGo isAl r

def pyTitle (s : String) : String := String.mk (pyTitleGo false s.data)

/-- An entry of the `ICONS_DATA` corpus. -/
structure IconData where
  name : String
  display_name : String
  category : String
  description : String
  keywords : List String
  use_cases : List String
deriving Repr

/-- An icon suggestion as placed in the response dictionaries.  Fields a
particular fallback does not set are `""`/`[]`. -/
structure IconSuggestion where
  name : String
  display_name : String
  description : String
  category : String
  keywords : List String
  similarity_score : ℚ
deriving Repr

/-- The response dictionary of `get_icon_suggestions_for_badge` and its
fallbacks (`query_processed` is omitted; `errorMsg` models the `"error"`
key only the emergency fallback sets). -/
structure IconResponse where
  suggested_icon : IconSuggestion
  alternatives : List IconSuggestion
  matching_method : String
  total_icons_available : Nat
  errorMsg : Option String
deriving Repr

/-- The module-level `ICON_KEYWORDS` fallback table (all 36 icons). -/
def ICON_KEYWORDS : List (String × List String) :=
  [("atom.png", ["science", "chemistry", "physics", "STEM", "molecular", "research", "atomic", "nuclear", "lab"]),
   ("binary-code.png", ["programming", "coding", "computer", "binary", "digital", "technology", "software", "data"]),
   ("brackets.png", ["code", "programming", "development", "syntax", "HTML", "JavaScript", "web", "developer"]),
   ("brain.png", ["intelligence", "thinking", "cognitive", "psychology", "neuroscience", "mental", "learning", "knowledge"]),
   ("calculator.png", ["math", "calculation", "numbers", "accounting", "statistics", "arithmetic", "algebra", "finance"]),
   ("checkmark.png", ["complete", "done", "success", "verified", "achieved", "finished", "approved", "passed"]),
   ("clock.png", ["time", "management", "punctual", "deadline", "schedule", "timely", "efficient", "duration"]),
   ("cloud-service.png", ["cloud", "computing", "storage", "online", "SaaS", "AWS", "Azure", "infrastructure"]),
   ("code.png", ["programming", "software", "development", "coding", "script", "algorithm", "function", "engineer"]),
   ("color-palette.png", ["art", "design", "creative", "colors", "painting", "visual", "aesthetic", "graphics"]),
   ("crown.png", ["leader", "champion", "winner", "best", "top", "excellence", "master", "first"]),
   ("diamond.png", ["premium", "quality", "rare", "valuable", "exceptional", "brilliant", "precious", "elite"]),
   ("dna.png", ["biology", "genetics", "DNA", "life", "biotechnology", "medical", "research", "genome"]),
   ("energy.png", ["energy", "power", "physics", "renewable", "sustainability", "electric", "dynamic", "vigor"]),
   ("gear.png", ["engineering", "mechanical", "settings", "technical", "machinery", "process", "system", "configuration"]),
   ("gem.png", ["precious", "special", "unique", "valuable", "rare", "jewel", "treasure", "exceptional"]),
   ("globe.png", ["global", "world", "geography", "international", "earth", "culture", "diversity", "environment"]),
   ("goal.png", ["goal", "target", "objective", "achievement", "milestone", "purpose", "aim", "success"]),
   ("graduation-cap.png", ["graduation", "academic", "education", "degree", "diploma", "university", "college", "scholar"]),
   ("growth.png", ["growth", "progress", "improvement", "development", "advance", "evolve", "increase", "expand"]),
   ("handshake.png", ["collaboration", "teamwork", "partnership", "cooperation", "agreement", "networking", "deal", "alliance"]),
   ("ink-bottle.png", ["writing", "literature", "poetry", "creative", "author", "journalism", "essay", "composition"]),
   ("leadership.png", ["leader", "management", "guide", "direct", "organize", "command", "influence", "inspire"]),
   ("medal.png", ["medal", "award", "honor", "recognition", "prize", "achievement", "competition", "distinction"]),
   ("microscope.png", ["research", "laboratory", "biology", "analysis", "investigation", "microscopy", "study", "chemistry"]),
   ("music_note.png", ["music", "note", "melody", "rhythm", "composition", "performance", "audio", "song"]),
   ("presentation.png", ["presentation", "speaking", "communication", "teaching", "lecture", "seminar", "pitch", "demonstration"]),
   ("robot.png", ["robot", "AI", "automation", "robotics", "technology", "innovation", "machine", "artificial"]),
   ("shield.png", ["security", "protection", "safety", "defense", "cybersecurity", "guard", "secure", "trust"]),
   ("solution.png", ["solution", "solve", "answer", "resolve", "fix", "innovation", "breakthrough", "discovery"]),
   ("spaceship.png", ["space", "rocket", "aerospace", "exploration", "innovation", "astronomy", "future", "launch"]),
   ("speech_bubble.png", ["communication", "dialogue", "discussion", "chat", "conversation", "feedback", "talk", "message"]),
   ("star.png", ["star", "excellence", "outstanding", "favorite", "quality", "special", "top", "best"]),
   ("teamwork.png", ["team", "collaboration", "group", "together", "cooperative", "collective", "unity", "synergy"]),
   ("thumbs-up.png", ["approval", "positive", "good", "like", "agree", "encourage", "satisfied", "yes"]),
   ("trophy.png", ["trophy", "winner", "champion", "victory", "first", "competition", "prize", "tournament"])]

/-- One tier of `_get_smart_fallback_response`'s category chain. -/
def categoryHit (combined : String) (ws : List String) : Bool :=
  ws.any fun w => pySubstr w combined

/-- The category chain of `_get_smart_fallback_response`, returning
`(name, display_name, category)`. -/
def smartCategoryIcon (combined : String) : String × String × String :=
  if categoryHit combined ["chemistry", "chemical", "molecule", "atom", "lab"] then
    ("atom.png", "Atom", "science")
  else if categoryHit combined ["code", "coding", "programming", "software", "developer", "binary"] then
    ("binary-code.png", "Binary Code", "technology")
  else if categoryHit combined ["science", "scientific", "research", "experiment"] then
    ("atom.png", "Science", "science")
  else if categoryHit combined ["education", "teaching", "learning", "teacher", "student", "praxis"] then
    ("book.png", "Education", "education")
  else if categoryHit combined ["math", "mathematics", "calculus", "algebra", "geometry"] then
    ("calculator.png", "Mathematics", "math")
  else if categoryHit combined ["art", "design", "creative", "drawing", "painting"] then
    ("palette.png", "Art", "creative")
  else if categoryHit combined ["music", "musical", "instrument", "song", "melody"] then
    ("music-note.png", "Music", "creative")
  else if categoryHit combined ["fitness", "exercise", "workout", "health", "sport"] then
    ("dumbbell.png", "Fitness", "health")
  else if categoryHit combined ["goal", "target", "objective", "milestone"] then
    ("goal.png", "Goal", "achievement")
  else if categoryHit combined ["star", "excellence", "outstanding", "exceptional"] then
    ("star.png", "Star", "achievement")
  else ("trophy.png", "Trophy", "achievement")

/-- `_get_smart_fallback_response`: category-match on the lowercased
`badge_name + " " + badge_description`, tagging the icon with score `0.5`
and method `smart_category_fallback`. -/
def getSmartFallbackResponse (iconsData : List IconData) (badgeName badgeDesc : String)
    (alts : List IconSuggestion) : IconResponse :=
  let combined := String.mk (pyLowerChars (badgeName ++ " " ++ badgeDesc).data)
  let pick := smartCategoryIcon combined
  { suggested_icon :=
      { name := pick.1, display_name := pick.2.1, category := pick.2.2,
        description := "Category-matched icon for " ++ badgeName,
        keywords := [], similarity_score := 1 / 2 }
    alternatives := alts
    matching_method := "smart_category_fallback"
    total_icons_available := iconsData.length
    errorMsg := none }

/-- Display name `icon.replace('.png', '').replace('-', ' ').title()`. -/
def keywordDisplayName (icon : String) : String :=
  pyTitle (pyReplace (pyReplace icon ".png" "") "-" " ")

/-- `_get_keyword_fallback_response`: count, per `ICON_KEYWORDS` entry, the
keywords occurring (lowercased, as substrings) in the lowercased combined
text; keep positive scores; sort descending (stably); normalize to
`min(score / 8.0, 1.0)`; if no icon scored, fall through to the smart
fallback. -/
def getKeywordFallbackResponse (iconsData : List IconData)
    (badgeName badgeDesc combined : String) (topK : Nat) : IconResponse :=
  let combinedLower := String.mk (pyLowerChars combined.data)
  let scored : List (String × Nat) := (ICON_KEYWORDS.map fun p =>
      (p.1, (p.2.filter fun kw =>
        pySubstr (String.mk (pyLowerChars kw.data)) combinedLower).length)).filter
    fun q => 0 < q.2
  let sortedIcons := scored.insertionSort fun a b => b.2 ≤ a.2
  match sortedIcons with
  | [] => getSmartFallbackResponse iconsData badgeName badgeDesc []
  | top :: rest =>
    { suggested_icon :=
        { name := top.1, display_name := keywordDisplayName top.1,
          description := "Keyword-matched icon for " ++ badgeName,
          category := "achievement", keywords := [],
          similarity_score := min ((top.2 : ℚ) / 8) 1 }
      alternatives := (rest.take (topK - 1)).map fun q =>
        { name := q.1, display_name := keywordDisplayName q.1,
          description := "", category := "", keywords := [],
          similarity_score := min ((q.2 : ℚ) / 8) 1 }
      matching_method := "keyword_fallback"
      total_icons_available := ICON_KEYWORDS.length
      errorMsg := none }

/-- `_get_fallback_response` ("complete fallback"): the hard-coded trophy
icon tagged with similarity 0.0 and an `"error"` marker. -/
def getEmergencyFallbackResponse : IconResponse :=
  { suggested_icon :=
      { name := "trophy.png", display_name := "Trophy",
        description := "Default achievement icon", category := "achievement",
        keywords := ["achievement", "success"], similarity_score := 0 }
    alternatives := []
    matching_method := "emergency_fallback"
    total_icons_available := 0
    errorMsg := some "Icon matching failed - using default" }

/-- `round(·, 4)` with Python's round-half-to-even. -/
def round4 (q : ℚ) : ℚ :=
  let scaled := q * 10000
  let f : ℤ := ⌊scaled⌋
  let r := scaled - (f : ℚ)
  let n : ℤ :=
    if r < 1 / 2 then f
    else if 1 / 2 < r then f + 1
    else if Even f then f else f + 1
  (n : ℚ) / 10000

/-- `get_icon_suggestions_for_badge`: the TF-IDF path over a nonempty
corpus (preprocessed query and icon texts, batch similarity, stable
descending sort, 0.15-threshold smart fallback) and the keyword fallback
for an empty corpus.  `pp` is `preprocess_text`, `k` the numeric kernel. -/
def getIconSuggestionsForBadge (pp : String → String) (k : TfidfKernel)
    (iconsData : List IconData) (badgeName badgeDesc customInstr : String)
    (topK : Nat) : IconResponse :=
  let combined := badgeName ++ " " ++ badgeDesc ++ " " ++ customInstr
  if !iconsData.isEmpty then
    let processedQuery := pp combined
    if processedQuery = "" then getEmergencyFallbackResponse
    else
      let iconTexts := iconsData.map fun ic =>
        pp (pyStrip (ic.description ++ " " ++ " ".intercalate ic.keywords ++ " " ++
          " ".intercalate ic.use_cases))
      let scores := calculateBatchSimilarity k processedQuery iconTexts
      let entries := (iconsData.zip scores).map fun p =>
        ({ name := p.1.name, display_name := p.1.display_name,
           description := p.1.description, category := p.1.category,
           keywords := p.1.keywords,
           similarity_score := round4 p.2 } : IconSuggestion)
      let sortedEntries := entries.insertionSort fun a b => b.similarity_score ≤ a.similarity_score
      match sortedEntries with
      | [] => getSmartFallbackResponse iconsData badgeName badgeDesc []
      | top :: rest =>
        let alternatives := rest.take (topK - 1)
        if top.similarity_score < 3 / 20 then
          getSmartFallbackResponse iconsData badgeName badgeDesc (alternatives.take (topK - 1))
        else
          { suggested_icon := top
            alternatives := alternatives
            matching_method := "tfidf_batch_similarity"
            total_icons_available := iconsData.length
            errorMsg := none }
  else getKeywordFallbackResponse iconsData badgeName badgeDesc combined topK

/-! ## Auxiliary definitions used in theorem statements -/

/-- A throwaway numeric kernel (the empty-corpus paths never consult it). -/
def zeroKernel : TfidfKernel := ⟨fun _ _ => 0, fun _ _ => 0⟩

/-- Every parsing stage of `_clean_json_response` fails on `s`: whichever
branch the brace search selects, its `json.loads` call fails. -/
def cleanCascadeFails (s : String) : Prop :=
  let t2 := (fenceStripped s).data
  match pyFindChar t2 '\x7b', pyRFindChar t2 '\x7d' with
  | some si, some ei =>
    if si < ei then pyJsonLoads (String.mk (pySlice t2 si (ei + 1))) = none
    else pyJsonLoads (pyStrip (String.mk t2)) = none
  | _, _ => pyJsonLoads (pyStrip (String.mk t2)) = none

/-- Every parsing stage of `extract_json_from_response` fails on `s`
(and `s` is not the empty-payload guard case). -/
def extractCascadeFails (s : String) : Prop :=
  pyStrip s ≠ "" ∧ pyJsonLoads (pyStrip s) = none ∧
    firstParsed (findAllP1 s.data) = none ∧ firstParsed (findAllP2 s.data) = none

/-- The ten category word lists of `_get_smart_fallback_response`, in
chain order. -/
def smartCategoryWordLists : List (List String) :=
  [["chemistry", "chemical", "molecule", "atom", "lab"],
   ["code", "coding", "programming", "software", "developer", "binary"],
   ["science", "scientific", "research", "experiment"],
   ["education", "teaching", "learning", "teacher", "student", "praxis"],
   ["math", "mathematics", "calculus", "algebra", "geometry"],
   ["art", "design", "creative", "drawing", "painting"],
   ["music", "musical", "instrument", "song", "melody"],
   ["fitness", "exercise", "workout", "health", "sport"],
   ["goal", "target", "objective", "milestone"],
   ["star", "excellence", "outstanding", "exceptional"]]

/-- Number of running requests in a multiplexer state. -/
def countRunning (s : MuxState) : Nat := s.phases.countP (· = ReqPhase.running)

/-- The inductive invariant of the multiplexer machine. -/
def MuxInv (n maxC : Nat) (s : MuxState) : Prop :=
  s.phases.length = n ∧
  s.activeRequests = countRunning s ∧
  s.semFree + countRunning s = maxC ∧
  s.acquires = s.phases.map (fun ph => if ph = ReqPhase.waiting then 0 else 1) ∧
  s.releases = s.phases.map (fun ph => if ph = ReqPhase.finished then 1 else 0)

/-- Number of terminal events in a stream. -/
def terminalCount (evs : List CEvent) : Nat := (evs.filter CEvent.isTerminal).length


/-! # Theorems -/

/-! ## C10 — process-wide singleton -/

/-- C10: `OllamaService` is a process-wide singleton — every construction
(`__new__` + `__init__`) returns the identical first instance (object id 0)
and the initialization body has run exactly once, however many
constructions occur. -/
theorem C10_ollama_service_singleton (k : Nat) (hk : 1 ≤ k) :
    (runConstructs k singInit).2 = List.replicate k 0 ∧
    (runConstructs k singInit).1.initCount = 1 ∧
    (runConstructs k singInit).1.instanceId = some 0 := by
  obtain ⟨j, rfl⟩ : ∃ j, k = j + 1 := ⟨k - 1, (Nat.succ_pred_eq_of_pos hk).symm⟩
  have hc1 : constructService singInit =
      (⟨some 0, true, 1, 1⟩, 0) := rfl
  have hcfix : constructService ⟨some 0, true, 1, 1⟩ =
      ((⟨some 0, true, 1, 1⟩ : SingState), 0) := rfl
  have hfix : ∀ m, runConstructs m ⟨some 0, true, 1, 1⟩ =
      ((⟨some 0, true, 1, 1⟩ : SingState), List.replicate m 0) := by
    intro m
    induction m with
    | zero => rfl
    | succ n ih => simp [runConstructs, hcfix, ih, List.replicate_succ]
  simp [runConstructs, hc1, hfix j, List.replicate_succ]

/-- Witness for C10 at `k = 3`. -/
theorem C10_ollama_service_singleton_witness :
    (runConstructs 3 singInit).2 = List.replicate 3 0 ∧
    (runConstructs 3 singInit).1.initCount = 1 ∧
    (runConstructs 3 singInit).1.instanceId = some 0 :=
  C10_ollama_service_singleton 3 (by norm_num)

/-! ## C9 — batch similarity is total with one score per document -/

/-- C9: `calculate_batch_similarity` always returns exactly one score per
document; on an empty query, an empty document list, or a failing
vectorization (empty fitted vocabulary) it returns `[0.0] * len(documents)`.
The embedding is a total function — both `json`-free failure paths of the
Python (`if not query or not documents` and the `except` clause around the
sklearn calls) are explicit branches — so no exception escapes. -/
theorem C9_batch_similarity_total (k : TfidfKernel) (q : String) (docs : List String) :
    (calculateBatchSimilarity k q docs).length = docs.length ∧
    ((q = "" ∨ docs = []) →
      calculateBatchSimilarity k q docs = List.replicate docs.length 0) ∧
    (buildVocabulary (q :: docs) = [] →
      calculateBatchSimilarity k q docs = List.replicate docs.length 0) := by
  refine ⟨?_, ?_, ?_⟩
  · unfold calculateBatchSimilarity
    split
    · simp
    · dsimp only
      split
      · simp
      · simp
  · intro h
    unfold calculateBatchSimilarity
    rcases h with h | h
    · simp [h]
    · simp [h]
  · intro h
    unfold calculateBatchSimilarity
    split
    · rfl
    · simp [h]

/-- Witness for C9: empty query over two documents. -/
theorem C9_batch_similarity_total_witness :
    calculateBatchSimilarity zeroKernel "" ["doc one", "doc two"] = [0, 0] := by
  have h := (C9_batch_similarity_total zeroKernel "" ["doc one", "doc two"]).2.1 (Or.inl rfl)
  simpa using h

/-! ## C7 — bounded, clamped keyword-overlap boost -/

theorem zipWith_append_drop_get (f : α → β → β) :
    ∀ (as : List α) (bs : List β) (i : Nat),
      (List.zipWith f as bs ++ bs.drop as.length)[i]? =
        match as[i]?, bs[i]? with
        | some a, some b => some (f a b)
        | none, some b => some b
        | _, none => none
  | [], bs, i => by
    cases h : bs[i]? <;> simp [h]
  | _ :: _, [], i => by
    simp
  | a :: as, b :: bs, 0 => by
    simp
  | a :: as, b :: bs, i + 1 => by
    simpa using zipWith_append_drop_get f as bs i

/-- C7: in the TF-IDF ranking path of `badge-generator/main.py`,
`_apply_keyword_boost` rewrites the score of every icon within range of
both lists by `boostOne`: with a positive stemmed-keyword overlap the score
becomes `min(1.0, score + min(0.3, overlap * 0.1))` — each exact match adds
`0.1`, the total boost is capped at `0.3`, and the result is clamped to at
most `1.0`; with no overlap the score is unchanged, and scores beyond the
icon list are returned untouched.  This holds for every preprocessing
function `pp` and every input score vector. -/
theorem C7_keyword_boost_bounded (pp : String → String) (text : String)
    (kws : List (List String)) (sims : List ℚ) :
    (∀ (i : Nat) (a : List String) (s : ℚ), kws[i]? = some a → sims[i]? = some s →
      (applyKeywordBoost pp text kws sims)[i]? = some (boostOne pp text a s) ∧
      (0 < boostOverlap pp text a →
        boostOne pp text a s =
          min 1 (s + min (3 / 10 : ℚ) ((boostOverlap pp text a : ℚ) * (1 / 10 : ℚ))) ∧
        boostOne pp text a s ≤ 1) ∧
      (boostOverlap pp text a = 0 → boostOne pp text a s = s)) ∧
    (∀ i, kws.length ≤ i → (applyKeywordBoost pp text kws sims)[i]? = sims[i]?) := by
  constructor
  · intro i a s ha hs
    refine ⟨?_, ?_, ?_⟩
    · unfold applyKeywordBoost
      rw [zipWith_append_drop_get]
      simp [ha, hs]
    · intro hpos
      constructor
      · unfold boostOne
        simp [hpos]
      · unfold boostOne
        simp only [hpos, if_pos]
        exact min_le_left _ _
    · intro hzero
      unfold boostOne
      simp [hzero]
  · intro i hi
    unfold applyKeywordBoost
    rw [zipWith_append_drop_get]
    have ha : kws[i]? = none := by
      simp [List.getElem?_eq_none hi]
    cases hb : sims[i]? <;> simp [ha, hb]

/-- Witness for C7: one icon whose keyword matches, one score in range. -/
theorem C7_keyword_boost_bounded_witness :
    (applyKeywordBoost id "python coding" [["coding"]] [1 / 4])[0]? =
      some (boostOne id "python coding" ["coding"] (1 / 4)) ∧
    boostOne id "python coding" ["coding"] (1 / 4) =
      min 1 (1 / 4 + min (3 / 10 : ℚ) ((boostOverlap id "python coding" ["coding"] : ℚ) * (1 / 10 : ℚ))) ∧
    boostOne id "python coding" ["coding"] (1 / 4) ≤ 1 := by
  have h := C7_keyword_boost_bounded id "python coding" [["coding"]] [1 / 4]
  have h1 := (h.1 0 ["coding"] (1 / 4) rfl rfl)
  have hpos : 0 < boostOverlap id "python coding" ["coding"] := by decide
  exact ⟨h1.1, (h1.2.1 hpos).1, (h1.2.1 hpos).2⟩

/-! ## C6 — empty-corpus fallback -/

/-- C6 counterexample: with an empty corpus and an entirely empty query the
suggestion operation does return the hard-coded default trophy icon, but
tagged with similarity 0.5 from the smart category fallback — not with the
zero confidence the claim asserts for every query. -/
theorem C6_zero_confidence_counterexample :
    (getIconSuggestionsForBadge preprocessNltk zeroKernel [] "" "" "" 3).suggested_icon.name
      = "trophy.png" ∧
    ¬((getIconSuggestionsForBadge preprocessNltk zeroKernel [] "" "" "" 3).suggested_icon.similarity_score
      = 0) := by
  refine ⟨rfl, ?_⟩
  have hs : (getIconSuggestionsForBadge preprocessNltk zeroKernel [] "" "" "" 3).suggested_icon.similarity_score
      = 1 / 2 := rfl
  rw [hs]
  norm_num

/-- C6 (amended): with an empty corpus the operation falls back to keyword
matching over the built-in keyword table; when additionally no keyword of
that table occurs in the combined query text and no category word of the
smart fallback occurs either, it returns the hard-coded default trophy
icon tagged with similarity 0.5 and method `smart_category_fallback` (the
zero-confidence trophy belongs to the separate emergency fallback, reached
only when the corpus is nonempty and the preprocessed query is empty). -/
theorem C6_empty_corpus_fallback (pp : String → String) (k : TfidfKernel)
    (name desc custom : String) (topK : Nat)
    (hkw : ∀ p ∈ ICON_KEYWORDS, ∀ kw ∈ p.2,
      pySubstr (String.mk (pyLowerChars kw.data))
        (String.mk (pyLowerChars (name ++ " " ++ desc ++ " " ++ custom).data)) = false)
    (hcat : ∀ ws ∈ smartCategoryWordLists,
      categoryHit (String.mk (pyLowerChars (name ++ " " ++ desc).data)) ws = false) :
    getIconSuggestionsForBadge pp k [] name desc custom topK =
      { suggested_icon :=
          { name := "trophy.png", display_name := "Trophy", category := "achievement",
            description := "Category-matched icon for " ++ name,
            keywords := [], similarity_score := 1 / 2 }
        alternatives := []
        matching_method := "smart_category_fallback"
        total_icons_available := 0
        errorMsg := none } := by
  set Q := name ++ " " ++ desc ++ " " ++ custom with hQdef
  have hscored :
      ((ICON_KEYWORDS.map fun p =>
          (p.1, (p.2.filter fun kw =>
            pySubstr (String.mk (pyLowerChars kw.data))
              (String.mk (pyLowerChars Q.data))).length)).filter
        fun q => 0 < q.2) = [] := by
    rw [List.filter_eq_nil]
    intro q hq
    rw [List.mem_map] at hq
    obtain ⟨p, hp, rfl⟩ := hq
    have hlen : (p.2.filter fun kw =>
        pySubstr (String.mk (pyLowerChars kw.data))
          (String.mk (pyLowerChars Q.data))).length = 0 := by
      rw [List.length_eq_zero, List.filter_eq_nil]
      intro kw hkw2
      simp only [hkw p hp kw hkw2, Bool.false_eq_true, not_false_eq_true]
    simp [hlen]
  have hpick :
      smartCategoryIcon (String.mk (pyLowerChars (name ++ " " ++ desc).data)) =
        ("trophy.png", "Trophy", "achievement") := by
    have h1 := hcat ["chemistry", "chemical", "molecule", "atom", "lab"]
      (by simp [smartCategoryWordLists])
    have h2 := hcat ["code", "coding", "programming", "software", "developer", "binary"]
      (by simp [smartCategoryWordLists])
    have h3 := hcat ["science", "scientific", "research", "experiment"]
      (by simp [smartCategoryWordLists])
    have h4 := hcat ["education", "teaching", "learning", "teacher", "student", "praxis"]
      (by simp [smartCategoryWordLists])
    have h5 := hcat ["math", "mathematics", "calculus", "algebra", "geometry"]
      (by simp [smartCategoryWordLists])
    have h6 := hcat ["art", "design", "creative", "drawing", "painting"]
      (by simp [smartCategoryWordLists])
    have h7 := hcat ["music", "musical", "instrument", "song", "melody"]
      (by simp [smartCategoryWordLists])
    have h8 := hcat ["fitness", "exercise", "workout", "health", "sport"]
      (by simp [smartCategoryWordLists])
    have h9 := hcat ["goal", "target", "objective", "milestone"]
      (by simp [smartCategoryWordLists])
    have h10 := hcat ["star", "excellence", "outstanding", "exceptional"]
      (by simp [smartCategoryWordLists])
    unfold smartCategoryIcon
    rw [h1, h2, h3, h4, h5, h6, h7, h8, h9, h10]
    rfl
  show getKeywordFallbackResponse [] name desc Q topK = _
  simp only [getKeywordFallbackResponse, hscored, List.insertionSort]
  simp only [getSmartFallbackResponse, hpick]
  rfl

/-- Witness for C6 (amended) at the all-empty query. -/
theorem C6_empty_corpus_fallback_witness :
    getIconSuggestionsForBadge preprocessNltk zeroKernel [] "" "" "" 3 =
      { suggested_icon :=
          { name := "trophy.png", display_name := "Trophy", category := "achievement",
            description := "Category-matched icon for " ++ "",
            keywords := [], similarity_score := 1 / 2 }
        alternatives := []
        matching_method := "smart_category_fallback"
        total_icons_available := 0
        errorMsg := none } :=
  C6_empty_corpus_fallback preprocessNltk zeroKernel "" "" "" 3 (by decide) (by decide)

/-! ## C4 — required-key backfill -/

theorem objInsert_of_absent (fs : List (String × Json)) (k : String) (v : Json)
    (h : jsonLookup fs k = none) : objInsert fs k v = fs ++ [(k, v)] := by
  unfold objInsert
  rw [if_neg]
  intro hany
  rw [List.any_eq_true] at hany
  obtain ⟨p, hp, hpk⟩ := hany
  unfold jsonLookup at h
  rw [Option.map_eq_none'] at h
  rw [List.find?_eq_none] at h
  exact absurd hpk (by simpa using h p hp)

/-- C4: after a successful parse the backfill makes the payload
schema-complete — an absent `criteria` key is appended as
`{"narrative": ""}`, a string-valued `criteria` is coerced in place to
`{"narrative": <string>}`, and the router pipeline on the fenced example
text produces exactly the payload
`{"badge_name": "X", "badge_description": "", "criteria": {"narrative": ""}}`. -/
theorem C4_required_key_backfill :
    (∀ fs : List (String × Json), jsonLookup fs "criteria" = none →
      normalizeBadgeJson (.jobj fs) =
        .jobj (fs ++ [("criteria", .jobj [("narrative", .jstr "")])])) ∧
    (∀ (fs : List (String × Json)) (c : String),
      jsonLookup fs "criteria" = some (.jstr c) →
      normalizeBadgeJson (.jobj fs) =
        .jobj (objInsert fs "criteria" (.jobj [("narrative", .jstr c)]))) ∧
    routerFinalBadge "Here:\n```json\n\x7b\"badge_name\":\"X\"\x7d\n```" =
      .ok { badge_name := "X", badge_description := "",
            criteria := .jobj [("narrative", .jstr "")],
            raw_model_output := "Here:\n```json\n\x7b\"badge_name\":\"X\"\x7d\n```" } := by
  refine ⟨?_, ?_, rfl⟩
  · intro fs h
    simp only [normalizeBadgeJson]
    rw [h, objInsert_of_absent fs "criteria" _ h]
  · intro fs c h
    simp only [normalizeBadgeJson]
    rw [h]

/-- Witness for C4: backfill on a payload missing both `criteria` (first
conjunct of the theorem) and on a bare-string `criteria` (second). -/
theorem C4_required_key_backfill_witness :
    normalizeBadgeJson (.jobj [("badge_name", .jstr "X")]) =
      .jobj [("badge_name", .jstr "X"), ("criteria", .jobj [("narrative", .jstr "")])] ∧
    normalizeBadgeJson (.jobj [("criteria", .jstr "Do the work")]) =
      .jobj (objInsert [("criteria", .jstr "Do the work")] "criteria"
        (.jobj [("narrative", .jstr "Do the work")])) := by
  constructor
  · have h := C4_required_key_backfill.1 [("badge_name", .jstr "X")] rfl
    simpa using h
  · exact C4_required_key_backfill.2.1 [("criteria", .jstr "Do the work")] "Do the work" rfl

/-! ## C3 — extractor totality and failure sentinel -/

/-- C3 counterexample to "a truncated preview of the *raw input* text":
on the input `"`oops"` every stage fails and the sentinel's preview is the
fence-stripped text `"oops"`, not the raw input. -/
theorem C3_raw_preview_counterexample :
    cleanJsonResponse "`oops" =
      pyJsonDumps (.jobj [("error", .jstr "Failed to generate valid JSON"),
                          ("raw_response", .jstr "oops")]) ∧
    pyJsonDumps (.jobj [("error", .jstr "Failed to generate valid JSON"),
                        ("raw_response", .jstr "oops")]) ≠
      pyJsonDumps (.jobj [("error", .jstr "Failed to generate valid JSON"),
                          ("raw_response", .jstr (pyTruncate200 "`oops"))]) := by
  exact ⟨rfl, by decide⟩

/-- C3 (amended): both extractors are total — every `json.loads` failure is
caught, so the embeddings return a normal value on every input — and on
total cascade failure each returns its sentinel carrying an error marker:
`_clean_json_response` returns the serialized object with a 200-character
truncated preview of the fence-stripped input, and
`extract_json_from_response` returns the object embedding the full raw
input. -/
theorem C3_extractor_never_raises :
    (∀ s : String, cleanCascadeFails s →
      cleanJsonResponse s = cleanSentinel (fenceStripped s)) ∧
    (∀ s : String, extractCascadeFails s →
      extractJsonFromResponse s =
        .jobj [("error", .jstr "json_extraction_failed"), ("raw_response", .jstr s)]) := by
  constructor
  · intro s h
    simp only [cleanJsonResponse]
    simp only [cleanCascadeFails] at h
    cases hf : pyFindChar (fenceStripped s).data '\x7b' with
    | none =>
      cases hr : pyRFindChar (fenceStripped s).data '\x7d' with
      | none => rw [hf, hr] at h; dsimp only at h; rw [h]
      | some ei => rw [hf, hr] at h; dsimp only at h; rw [h]
    | some si =>
      cases hr : pyRFindChar (fenceStripped s).data '\x7d' with
      | none => rw [hf, hr] at h; dsimp only at h; rw [h]
      | some ei =>
        rw [hf, hr] at h
        dsimp only at h ⊢
        by_cases hlt : si < ei
        · rw [if_pos hlt] at h ⊢
          rw [h]
        · rw [if_neg hlt] at h ⊢
          rw [h]
  · intro s h
    obtain ⟨h1, h2, h3, h4⟩ := h
    unfold extractJsonFromResponse
    rw [if_neg h1, h2, h3, h4]

/-- Witness for C3 (amended) on `"not json at all"`. -/
theorem C3_extractor_never_raises_witness :
    cleanJsonResponse "not json at all" = cleanSentinel (fenceStripped "not json at all") ∧
    extractJsonFromResponse "not json at all" =
      .jobj [("error", .jstr "json_extraction_failed"),
             ("raw_response", .jstr "not json at all")] :=
  ⟨C3_extractor_never_raises.1 "not json at all" rfl,
   C3_extractor_never_raises.2 "not json at all" ⟨by decide, rfl, rfl, rfl⟩⟩

/-! ## C5 — typed exceptions vs. terminal error events -/

/-- Structure of the line loop's output: if the loop stopped early the
event list is a nonterminal prefix closed by exactly one terminal event;
if it ran to the end no terminal event was emitted at all. -/
theorem clientProcessB_structure :
    ∀ (ls : List String) (acc : String),
      ((clientProcessB ls acc).2 = true →
        ∃ evs t, (clientProcessB ls acc).1 = evs ++ [t] ∧ t.isTerminal = true ∧
          ∀ e ∈ evs, e.isTerminal = false) ∧
      ((clientProcessB ls acc).2 = false →
        ∀ e ∈ (clientProcessB ls acc).1, e.isTerminal = false)
  | [], acc => by
    constructor
    · intro h
      simp [clientProcessB] at h
    · intro _ e he
      simp [clientProcessB] at he
  | line :: rest, acc => by
    unfold clientProcessB
    split
    · exact clientProcessB_structure rest acc
    · split
      · exact clientProcessB_structure rest acc
      · rename_i fs
        dsimp only
        split
        · split
          · rename_i t ht
            have ih := clientProcessB_structure rest (acc ++ t)
            constructor
            · intro h2
              dsimp at h2
              obtain ⟨evs, tm, heq, htm, hnt⟩ := ih.1 h2
              refine ⟨CEvent.token t (acc ++ t) :: evs, tm, ?_, htm, ?_⟩
              · simp [heq]
              · intro e he
                rcases List.mem_cons.mp he with rfl | he2
                · rfl
                · exact hnt e he2
            · intro h2 e he
              dsimp at h2
              rcases List.mem_cons.mp he with rfl | he2
              · rfl
              · exact ih.2 h2 e he2
          · constructor
            · intro _
              exact ⟨[], _, rfl, rfl, by simp⟩
            · intro h2
              simp at h2
        · split
          · constructor
            · intro _
              exact ⟨[], _, rfl, rfl, by simp⟩
            · intro h2
              simp at h2
          · exact clientProcessB_structure rest acc
      · constructor
        · intro _
          exact ⟨[], _, rfl, rfl, by simp⟩
        · intro h2
          simp at h2

/-- C5: transport failures of the single-shot `generate` call surface as
typed `HTTPException`s — 504 for a timeout, 502 for a backend HTTP error,
500 for any other failure — while the same failures of a streamed call are
converted into a single terminal Error event: a failing `raise_for_status`
yields exactly one error event, and a connection failure after the
delivered lines (when the loop has not already terminated on its own)
appends exactly one error event after the nonterminal token events, so the
stream function returns normally with exactly one terminal event. -/
theorem C5_transport_failure_conversion (body : String) (code : Nat) (msg : String)
    (ls : List String) (e : NetErr) :
    clientGenerate .timeout = .error ⟨504, "Model request timed out"⟩ ∧
    clientGenerate (.httpStatusFail code) =
      .error ⟨502, "Model API error: " ++ toString code⟩ ∧
    clientGenerate (.netFail msg) = .error ⟨500, "Model call failed: " ++ msg⟩ ∧
    clientGenerateStream (.httpStatusFail code body) =
      [CEvent.errorEv ("Model API error: " ++ toString code ++ " - " ++ body) "http_error"] ∧
    ((clientProcessB ls "").2 = false →
      clientGenerateStream (.lines ls (some e)) =
        (clientProcessB ls "").1 ++ [streamFailEvent e] ∧
      (∀ ev ∈ (clientProcessB ls "").1, ev.isTerminal = false) ∧
      terminalCount (clientGenerateStream (.lines ls (some e))) = 1) := by
  refine ⟨rfl, rfl, rfl, rfl, ?_⟩
  intro hstop
  have hshape : clientGenerateStream (.lines ls (some e)) =
      (clientProcessB ls "").1 ++ [streamFailEvent e] := by
    unfold clientGenerateStream
    dsimp only
    rw [hstop]
    rfl
  have hterm : ∀ ev ∈ (clientProcessB ls "").1, ev.isTerminal = false :=
    (clientProcessB_structure ls "").2 hstop
  refine ⟨hshape, hterm, ?_⟩
  rw [hshape]
  unfold terminalCount
  rw [List.filter_append]
  rw [List.filter_eq_nil.mpr (by intro e2 he2; rw [hterm e2 he2]; exact Bool.false_ne_true)]
  cases e <;> rfl

/-- Witness for C5: two token lines followed by a mid-stream timeout. -/
theorem C5_transport_failure_conversion_witness :
    clientGenerateStream
        (.lines ["\x7b\"response\":\"He\",\"done\":false\x7d",
                 "\x7b\"response\":\"y\",\"done\":false\x7d"] (some .timeout)) =
      (clientProcessB ["\x7b\"response\":\"He\",\"done\":false\x7d",
                       "\x7b\"response\":\"y\",\"done\":false\x7d"] "").1 ++
        [streamFailEvent .timeout] ∧
    terminalCount (clientGenerateStream
        (.lines ["\x7b\"response\":\"He\",\"done\":false\x7d",
                 "\x7b\"response\":\"y\",\"done\":false\x7d"] (some .timeout))) = 1 := by
  have h := (C5_transport_failure_conversion "" 0 ""
      ["\x7b\"response\":\"He\",\"done\":false\x7d",
       "\x7b\"response\":\"y\",\"done\":false\x7d"] .timeout).2.2.2.2 rfl
  exact ⟨h.1, h.2.2⟩

/-! ## C1 — well-formed streams: tokens, then exactly one final event -/

/-- Token events are not terminal. -/
theorem tokenEvs_not_terminal :
    ∀ (ts : List String) (acc : String), ∀ e ∈ tokenEvs acc ts, e.isTerminal = false
  | [], _ => by simp [tokenEvs]
  | t :: ts, acc => by
    intro e he
    rcases List.mem_cons.mp he with rfl | he2
    · rfl
    · exact tokenEvs_not_terminal ts (acc ++ t) e he2

/-- The line loop on a well-formed stream containing a completion line:
starting from any accumulator it yields the token events of some token
contents `ts` followed by exactly the final event carrying the full
accumulated text. -/
theorem clientProcessB_wellformed :
    ∀ (ls : List String) (acc : String),
      (∀ l ∈ ls, WFLine l) → (∃ l ∈ ls, DoneLine l) →
      ∃ ts d1 d2 d3 d4,
        clientProcessB ls acc =
          (tokenEvs acc ts ++ [CEvent.finalEv (acc ++ strConcat ts) d1 d2 d3 d4], true)
  | [], acc => by
    intro _ hdone
    simp at hdone
  | line :: rest, acc => by
    intro hwf hdone
    unfold clientProcessB
    split
    · rename_i hblank
      have hrest : ∃ l ∈ rest, DoneLine l := by
        obtain ⟨l, hl, hdl⟩ := hdone
        rcases List.mem_cons.mp hl with rfl | hl2
        · exact absurd hblank hdl.1
        · exact ⟨l, hl2, hdl⟩
      obtain ⟨ts, d1, d2, d3, d4, ih⟩ :=
        clientProcessB_wellformed rest acc (fun l hl => hwf l (List.mem_cons_of_mem _ hl)) hrest
      exact ⟨ts, d1, d2, d3, d4, ih⟩
    · rename_i hblank
      split
      · rename_i hnone
        rcases hwf line (List.mem_cons_self _ _) with hb | ⟨fs, hp, _⟩
        · exact absurd hb hblank
        · rw [hp] at hnone
          exact Option.noConfusion hnone
      · rename_i fs hparse
        have hwfl : jsonTruthy (jsonGetD fs "done" (.jbool false)) = true ∨
            (∃ t, jsonLookup fs "response" = some (.jstr t)) ∨
            jsonHasKey fs "response" = false := by
          rcases hwf line (List.mem_cons_self _ _) with hb | ⟨fs2, hp2, hd2⟩
          · exact absurd hb hblank
          · have hfs2 : fs2 = fs := by
              have h12 := hp2.symm.trans hparse
              simpa using h12
            subst hfs2
            exact hd2
        have hnotdone : jsonTruthy (jsonGetD fs "done" (.jbool false)) = true →
            DoneLine line := by
          intro ht
          exact ⟨hblank, fs, hparse, ht⟩
        dsimp only
        split
        · rename_i hcond
          rw [Bool.and_eq_true, Bool.not_eq_true'] at hcond
          split
          · rename_i t heq
            have hrest : ∃ l ∈ rest, DoneLine l := by
              obtain ⟨l, hl, hdl⟩ := hdone
              rcases List.mem_cons.mp hl with rfl | hl2
              · obtain ⟨-, fs2, hp2, hd2⟩ := hdl
                have hfs2 : fs2 = fs := by
                  have h12 := hp2.symm.trans hparse
                  simpa using h12
                subst hfs2
                rw [hcond.2] at hd2
                exact Bool.noConfusion hd2
              · exact ⟨l, hl2, hdl⟩
            obtain ⟨ts, d1, d2, d3, d4, ih⟩ :=
              clientProcessB_wellformed rest (acc ++ t)
                (fun l hl => hwf l (List.mem_cons_of_mem _ hl)) hrest
            refine ⟨t :: ts, d1, d2, d3, d4, ?_⟩
            rw [ih]
            simp [tokenEvs, strConcat, String.append_assoc]
          · rename_i hnostr
            rcases hwfl with hd | ⟨t, hstr⟩ | hnk
            · rw [hcond.2] at hd
              exact Bool.noConfusion hd
            · exact absurd hstr (hnostr t)
            · rw [hcond.1] at hnk
              exact Bool.noConfusion hnk
        · split
          · refine ⟨[], jsonGetOpt fs "total_duration", jsonGetOpt fs "load_duration",
              jsonGetOpt fs "prompt_eval_count", jsonGetOpt fs "eval_count", ?_⟩
            simp [tokenEvs, strConcat, String.append_empty]
          · rename_i hnd2
            have hrest : ∃ l ∈ rest, DoneLine l := by
              obtain ⟨l, hl, hdl⟩ := hdone
              rcases List.mem_cons.mp hl with rfl | hl2
              · obtain ⟨-, fs2, hp2, hd2⟩ := hdl
                have hfs2 : fs2 = fs := by
                  have h12 := hp2.symm.trans hparse
                  simpa using h12
                subst hfs2
                exact absurd hd2 hnd2
              · exact ⟨l, hl2, hdl⟩
            exact clientProcessB_wellformed rest acc
              (fun l hl => hwf l (List.mem_cons_of_mem _ hl)) hrest
      · rename_i v hv hparse
        rcases hwf line (List.mem_cons_self _ _) with hb | ⟨fs2, hp2, _⟩
        · exact absurd hb hblank
        · have h13 : v = Json.jobj fs2 := by
            have h12 := hparse.symm.trans hp2
            simpa using h12
          exact (hv fs2 h13).elim

/-- C1: on every well-formed NDJSON line stream (each line blank or a
parsed object with a string `response` and/or a `done` flag) that contains
a completion line, `generate_stream` emits zero or more Token events
followed by exactly one terminal event — the Final event, which is last —
and the Final event's accumulated text equals the ordered concatenation of
the contents of all preceding Token events. -/
theorem C1_wellformed_stream_events (ls : List String)
    (hwf : ∀ l ∈ ls, WFLine l) (hdone : ∃ l ∈ ls, DoneLine l) :
    ∃ ts d1 d2 d3 d4,
      clientGenerateStream (.lines ls none) =
        tokenEvs "" ts ++ [CEvent.finalEv (strConcat ts) d1 d2 d3 d4] ∧
      terminalCount (clientGenerateStream (.lines ls none)) = 1 := by
  obtain ⟨ts, d1, d2, d3, d4, h⟩ := clientProcessB_wellformed ls "" hwf hdone
  have hstream : clientGenerateStream (.lines ls none) =
      tokenEvs "" ts ++ [CEvent.finalEv (strConcat ts) d1 d2 d3 d4] := by
    unfold clientGenerateStream
    dsimp only
    rw [h]
    rfl
  refine ⟨ts, d1, d2, d3, d4, hstream, ?_⟩
  rw [hstream]
  unfold terminalCount
  rw [List.filter_append]
  rw [List.filter_eq_nil.mpr
    (by
      intro e2 he2
      rw [tokenEvs_not_terminal ts "" e2 he2]
      exact Bool.false_ne_true)]
  rfl

/-- Witness for C1: one token line, one completion line. -/
theorem C1_wellformed_stream_events_witness :
    ∃ ts d1 d2 d3 d4,
      clientGenerateStream
          (.lines ["\x7b\"response\":\"ab\",\"done\":false\x7d", "\x7b\"done\":true\x7d"] none) =
        tokenEvs "" ts ++ [CEvent.finalEv (strConcat ts) d1 d2 d3 d4] ∧
      terminalCount (clientGenerateStream
          (.lines ["\x7b\"response\":\"ab\",\"done\":false\x7d", "\x7b\"done\":true\x7d"] none)) = 1 := by
  apply C1_wellformed_stream_events
  · intro l hl
    rcases List.mem_cons.mp hl with rfl | hl2
    · exact Or.inr ⟨[("response", .jstr "ab"), ("done", .jbool false)], rfl,
        Or.inr (Or.inl ⟨"ab", rfl⟩)⟩
    · rcases List.mem_cons.mp hl2 with rfl | hl3
      · exact Or.inr ⟨[("done", .jbool true)], rfl, Or.inl rfl⟩
      · exact absurd hl3 (List.not_mem_nil _)
  · refine ⟨"\x7b\"done\":true\x7d", by simp, by decide, [("done", .jbool true)], rfl, rfl⟩

/-! ## C2 — slot ceiling and exactly-once release -/

theorem countP_set_balance (p : ReqPhase → Bool) :
    ∀ (l : List ReqPhase) (i : Nat) (a b : ReqPhase), l.get? i = some a →
      (l.set i b).countP p + (if p a then 1 else 0) =
        l.countP p + (if p b then 1 else 0)
  | [], i, a, b => by simp
  | c :: rest, 0, a, b => by
    intro h
    injection h with h2
    subst h2
    simp [List.countP_cons]
    omega
  | c :: rest, i + 1, a, b => by
    intro h
    have ih := countP_set_balance p rest i a b h
    simp [List.countP_cons]
    omega

theorem set_same_of_get (l : List Nat) (i : Nat) (a : Nat) (h : l.get? i = some a) :
    l.set i a = l := by
  induction l generalizing i with
  | nil => simp at h
  | cons c rest ih =>
    cases i with
    | zero =>
      injection h with h2
      subst h2
      rfl
    | succ j =>
      simp only [List.set]
      rw [ih j h]

/-- The inductive invariant holds in every reachable state. -/
theorem mux_inv_reachable (n maxC : Nat) (s : MuxState)
    (h : MuxReachable n maxC s) : MuxInv n maxC s := by
  induction h with
  | refl =>
    have hz : countRunning (muxInit n maxC) = 0 := by
      unfold countRunning muxInit
      rw [List.countP_eq_zero]
      intro a ha
      rw [List.eq_of_mem_replicate ha]
      simp
    refine ⟨by simp [muxInit], ?_, ?_, ?_, ?_⟩
    · rw [hz]
      rfl
    · rw [hz]
      rfl
    · show List.replicate n 0 = _
      rw [show (muxInit n maxC).phases = List.replicate n ReqPhase.waiting from rfl,
        List.map_replicate]
      rfl
    · show List.replicate n 0 = _
      rw [show (muxInit n maxC).phases = List.replicate n ReqPhase.waiting from rfl,
        List.map_replicate]
      rfl
  | tail hab hstep ih =>
    rename_i b c
    obtain ⟨ihlen, ihact, ihsem, ihacq, ihrel⟩ := ih
    cases hstep with
    | acquire i hw hfree =>
      have hcount : (b.phases.set i ReqPhase.running).countP (· = ReqPhase.running) =
          b.phases.countP (· = ReqPhase.running) + 1 := by
        have h0 := countP_set_balance (· = ReqPhase.running) b.phases i .waiting .running hw
        simpa using h0
      have hacqD : b.acquires.getD i 0 = 0 := by
        rw [ihacq, List.getD_eq_getElem?_getD, List.getElem?_map, ← List.get?_eq_getElem?, hw]
        rfl
      refine ⟨?_, ?_, ?_, ?_, ?_⟩
      · show (b.phases.set i ReqPhase.running).length = n
        rw [List.length_set, ihlen]
      · show b.activeRequests + 1 = countRunning (muxAcquire b i)
        unfold countRunning muxAcquire at *
        dsimp only at *
        omega
      · show b.semFree - 1 + countRunning (muxAcquire b i) = maxC
        unfold countRunning muxAcquire at *
        dsimp only at *
        omega
      · show b.acquires.set i (b.acquires.getD i 0 + 1) =
          List.map (fun ph => if ph = ReqPhase.waiting then 0 else 1) (b.phases.set i .running)
        rw [hacqD, ihacq, List.map_set]
        rfl
      · show b.releases =
          List.map (fun ph => if ph = ReqPhase.finished then 1 else 0) (b.phases.set i .running)
        rw [List.map_set]
        rw [show (if ReqPhase.running = ReqPhase.finished then 1 else 0) = 0 from rfl]
        rw [set_same_of_get _ _ _
          (by rw [List.get?_eq_getElem?, List.getElem?_map, ← List.get?_eq_getElem?, hw]; rfl)]
        exact ihrel
    | finish i exc hr =>
      have hcount : (b.phases.set i ReqPhase.finished).countP (· = ReqPhase.running) + 1 =
          b.phases.countP (· = ReqPhase.running) := by
        have h0 := countP_set_balance (· = ReqPhase.running) b.phases i .running .finished hr
        simpa using h0
      have hpos : 0 < countRunning b := by
        unfold countRunning
        rw [List.countP_pos]
        exact ⟨.running, List.get?_mem hr, by simp⟩
      have hrelD : b.releases.getD i 0 = 0 := by
        rw [ihrel, List.getD_eq_getElem?_getD, List.getElem?_map, ← List.get?_eq_getElem?, hr]
        rfl
      refine ⟨?_, ?_, ?_, ?_, ?_⟩
      · show (b.phases.set i ReqPhase.finished).length = n
        rw [List.length_set, ihlen]
      · show b.activeRequests - 1 = countRunning (muxRelease b i)
        unfold countRunning muxRelease at *
        dsimp only at *
        omega
      · show b.semFree + 1 + countRunning (muxRelease b i) = maxC
        unfold countRunning muxRelease at *
        dsimp only at *
        omega
      · show b.acquires =
          List.map (fun ph => if ph = ReqPhase.waiting then 0 else 1) (b.phases.set i .finished)
        rw [List.map_set]
        rw [show (if ReqPhase.finished = ReqPhase.waiting then 0 else 1) = 1 from rfl]
        rw [set_same_of_get _ _ _
          (by rw [List.get?_eq_getElem?, List.getElem?_map, ← List.get?_eq_getElem?, hr]; rfl)]
        exact ihacq
      · show b.releases.set i (b.releases.getD i 0 + 1) =
          List.map (fun ph => if ph = ReqPhase.finished then 1 else 0) (b.phases.set i .finished)
        rw [hrelD, ihrel, List.map_set]
        rfl

/-- C2: in every state reachable by `generate` / `generate_stream`
executions, the number of in-flight slots never exceeds the configured
ceiling `MAX_CONCURRENT_REQUESTS`, and each request's slot is acquired and
released exactly once along its lifecycle: a waiting request has performed
no slot operation, a running one exactly one acquire and no release, and a
finished one — whether it completed normally or exceptionally — exactly
one acquire and exactly one release (the `finally` block). -/
theorem C2_slot_ceiling_and_release (n maxC : Nat) (s : MuxState)
    (h : MuxReachable n maxC s) :
    s.activeRequests ≤ maxC ∧
    ∀ i : Nat,
      (s.phases.get? i = some .waiting →
        s.acquires.get? i = some 0 ∧ s.releases.get? i = some 0) ∧
      (s.phases.get? i = some .running →
        s.acquires.get? i = some 1 ∧ s.releases.get? i = some 0) ∧
      (s.phases.get? i = some .finished →
        s.acquires.get? i = some 1 ∧ s.releases.get? i = some 1) := by
  obtain ⟨hlen, hact, hsem, hacq, hrel⟩ := mux_inv_reachable n maxC s h
  constructor
  · omega
  · intro i
    refine ⟨?_, ?_, ?_⟩ <;> intro hph <;> constructor
    · rw [hacq, List.get?_eq_getElem?, List.getElem?_map, ← List.get?_eq_getElem?, hph]
      rfl
    · rw [hrel, List.get?_eq_getElem?, List.getElem?_map, ← List.get?_eq_getElem?, hph]
      rfl
    · rw [hacq, List.get?_eq_getElem?, List.getElem?_map, ← List.get?_eq_getElem?, hph]
      rfl
    · rw [hrel, List.get?_eq_getElem?, List.getElem?_map, ← List.get?_eq_getElem?, hph]
      rfl
    · rw [hacq, List.get?_eq_getElem?, List.getElem?_map, ← List.get?_eq_getElem?, hph]
      rfl
    · rw [hrel, List.get?_eq_getElem?, List.getElem?_map, ← List.get?_eq_getElem?, hph]
      rfl

/-- Witness for C2: the state after one request acquires a slot
(ceiling 5, two requests). -/
theorem C2_slot_ceiling_and_release_witness :
    (muxAcquire (muxInit 2 5) 0).activeRequests ≤ 5 ∧
    ∀ i : Nat,
      ((muxAcquire (muxInit 2 5) 0).phases.get? i = some .waiting →
        (muxAcquire (muxInit 2 5) 0).acquires.get? i = some 0 ∧
        (muxAcquire (muxInit 2 5) 0).releases.get? i = some 0) ∧
      ((muxAcquire (muxInit 2 5) 0).phases.get? i = some .running →
        (muxAcquire (muxInit 2 5) 0).acquires.get? i = some 1 ∧
        (muxAcquire (muxInit 2 5) 0).releases.get? i = some 0) ∧
      ((muxAcquire (muxInit 2 5) 0).phases.get? i = some .finished →
        (muxAcquire (muxInit 2 5) 0).acquires.get? i = some 1 ∧
        (muxAcquire (muxInit 2 5) 0).releases.get? i = some 1) :=
  C2_slot_ceiling_and_release 2 5 (muxAcquire (muxInit 2 5) 0)
    (Relation.ReflTransGen.single
      (MuxStep.acquire (muxInit 2 5) 0 rfl (by rw [show (muxInit 2 5).semFree = 5 from rfl]; norm_num)))

/-! ### C8: idempotence of the text normalizer -/

theorem charOfNat_toNat_valid (n : Nat) (h : Nat.isValidChar n) :
    (Char.ofNat n).toNat = n := by
  unfold Char.ofNat
  rw [dif_pos h]
  rfl

theorem pyLowerChar_idem (c : Char) : pyLowerChar (pyLowerChar c) = pyLowerChar c := by
  unfold pyLowerChar
  by_cases h : ('A' ≤ c && c ≤ 'Z') = true
  · rw [if_pos h]
    rw [Bool.and_eq_true, decide_eq_true_eq, decide_eq_true_eq] at h
    obtain ⟨h1, h2⟩ := h
    have hlo : (65 : Nat) ≤ c.toNat := h1
    have hhi : c.toNat ≤ 90 := h2
    have hval : Nat.isValidChar (c.toNat + 32) := Or.inl (by omega)
    have ht : (Char.ofNat (c.toNat + 32)).toNat = c.toNat + 32 :=
      charOfNat_toNat_valid _ hval
    rw [if_neg]
    intro hcon
    rw [Bool.and_eq_true, decide_eq_true_eq, decide_eq_true_eq] at hcon
    obtain ⟨g1, g2⟩ := hcon
    have gh : (Char.ofNat (c.toNat + 32)).toNat ≤ 90 := g2
    omega
  · rw [if_neg h, if_neg h]

theorem collapseWsAux_cons (b : Bool) (c : Char) (rest : List Char) :
    collapseWsAux b (c :: rest)
      = if isPySpace c = true then
          (if b = true then collapseWsAux true rest else ' ' :: collapseWsAux true rest)
        else c :: collapseWsAux false rest := rfl

theorem collapseWsAux_nil (b : Bool) : collapseWsAux b [] = [] := rfl

theorem splitWsAux_cons (acc : List Char) (c : Char) (rest : List Char) :
    splitWsAux acc (c :: rest)
      = if isPySpace c = true then
          (if acc.isEmpty = true then splitWsAux [] rest
           else acc.reverse :: splitWsAux [] rest)
        else splitWsAux (c :: acc) rest := rfl

theorem space_not_word {c : Char} (h : isPySpace c = true) : isWordChar c = false := by
  unfold isPySpace at h
  simp only [Bool.or_eq_true, decide_eq_true_eq] at h
  rcases h with ((((h | h) | h) | h) | h) | h <;> subst h <;> rfl

theorem word_not_space {c : Char} (h : isWordChar c = true) : isPySpace c = false := by
  cases hsp : isPySpace c
  · rfl
  · exact absurd ((space_not_word hsp).symm.trans h) Bool.false_ne_true

theorem mem_collapseWsAux {c : Char} :
    ∀ (l : List Char) (b : Bool), c ∈ collapseWsAux b l → c = ' ' ∨ c ∈ l := by
  intro l
  induction l with
  | nil => intro b h; exact absurd h (List.not_mem_nil c)
  | cons d rest ih =>
    intro b h
    unfold collapseWsAux at h
    by_cases hd : isPySpace d = true
    · rw [if_pos hd] at h
      cases b with
      | true =>
        simp only [if_pos rfl] at h
        rcases ih true h with h1 | h1
        · exact Or.inl h1
        · exact Or.inr (List.mem_cons_of_mem d h1)
      | false =>
        simp only [Bool.false_eq_true, if_neg] at h
        rcases List.mem_cons.mp h with h1 | h1
        · exact Or.inl h1
        · rcases ih true h1 with h2 | h2
          · exact Or.inl h2
          · exact Or.inr (List.mem_cons_of_mem d h2)
    · rw [if_neg hd] at h
      rcases List.mem_cons.mp h with h1 | h1
      · exact Or.inr (h1 ▸ List.mem_cons_self d rest)
      · rcases ih false h1 with h2 | h2
        · exact Or.inl h2
        · exact Or.inr (List.mem_cons_of_mem d h2)

theorem mem_subNonWordSpace {c : Char} {l : List Char}
    (h : c ∈ subNonWordSpace l) (hns : isPySpace c = false) :
    isWordChar c = true ∧ c ∈ l := by
  unfold subNonWordSpace at h
  obtain ⟨c0, hc0, heq⟩ := List.mem_map.mp h
  by_cases hcond : (!(isWordChar c0) && !(isPySpace c0)) = true
  · rw [if_pos hcond] at heq
    rw [← heq] at hns
    exact absurd hns (by decide)
  · rw [if_neg hcond] at heq
    subst heq
    by_cases hw : isWordChar c0 = true
    · exact ⟨hw, hc0⟩
    · exfalso
      apply hcond
      rw [Bool.eq_false_iff.mpr hw, hns]
      rfl

theorem mem_pyStripChars {c : Char} {l : List Char} (h : c ∈ pyStripChars l) : c ∈ l := by
  unfold pyStripChars at h
  rw [List.mem_reverse] at h
  have h2 := (List.dropWhile_sublist isPySpace).subset h
  rw [List.mem_reverse] at h2
  exact (List.dropWhile_sublist isPySpace).subset h2

theorem splitWsAux_mem :
    ∀ (l acc : List Char) (w : List Char), w ∈ splitWsAux acc l →
      w ≠ [] ∧ ∀ c ∈ w, c ∈ acc ∨ (c ∈ l ∧ isPySpace c = false) := by
  intro l
  induction l with
  | nil =>
    intro acc w h
    unfold splitWsAux at h
    by_cases he : acc.isEmpty = true
    · rw [if_pos he] at h
      exact absurd h (List.not_mem_nil w)
    · rw [if_neg he] at h
      rcases List.mem_cons.mp h with h1 | h1
      · subst h1
        constructor
        · intro hcon
          rw [List.reverse_eq_nil_iff] at hcon
          rw [hcon] at he
          exact he rfl
        · intro c hc
          exact Or.inl (List.mem_reverse.mp hc)
      · exact absurd h1 (List.not_mem_nil w)
  | cons d rest ih =>
    intro acc w h
    unfold splitWsAux at h
    by_cases hd : isPySpace d = true
    · rw [if_pos hd] at h
      by_cases he : acc.isEmpty = true
      · rw [if_pos he] at h
        obtain ⟨hne, hmem⟩ := ih [] w h
        refine ⟨hne, fun c hc => ?_⟩
        rcases hmem c hc with h1 | h1
        · exact absurd h1 (List.not_mem_nil c)
        · exact Or.inr ⟨List.mem_cons_of_mem d h1.1, h1.2⟩
      · rw [if_neg he] at h
        rcases List.mem_cons.mp h with h1 | h1
        · subst h1
          constructor
          · intro hcon
            rw [List.reverse_eq_nil_iff] at hcon
            rw [hcon] at he
            exact he rfl
          · intro c hc
            exact Or.inl (List.mem_reverse.mp hc)
        · obtain ⟨hne, hmem⟩ := ih [] w h1
          refine ⟨hne, fun c hc => ?_⟩
          rcases hmem c hc with h2 | h2
          · exact absurd h2 (List.not_mem_nil c)
          · exact Or.inr ⟨List.mem_cons_of_mem d h2.1, h2.2⟩
    · rw [if_neg hd] at h
      obtain ⟨hne, hmem⟩ := ih (d :: acc) w h
      refine ⟨hne, fun c hc => ?_⟩
      rcases hmem c hc with h1 | h1
      · rcases List.mem_cons.mp h1 with h2 | h2
        · subst h2
          exact Or.inr ⟨List.mem_cons_self c rest, Bool.eq_false_iff.mpr hd⟩
        · exact Or.inl h2
      · exact Or.inr ⟨List.mem_cons_of_mem d h1.1, h1.2⟩

theorem splitWsAux_append_word :
    ∀ (w acc rest : List Char), (∀ c ∈ w, isPySpace c = false) →
      splitWsAux acc (w ++ rest) = splitWsAux (w.reverse ++ acc) rest := by
  intro w
  induction w with
  | nil => intro acc rest _; rfl
  | cons c w' ih =>
    intro acc rest hns
    have hc : isPySpace c = false := hns c (List.mem_cons_self c w')
    have e1 : splitWsAux acc ((c :: w') ++ rest) = splitWsAux (c :: acc) (w' ++ rest) := by
      rw [List.cons_append, splitWsAux_cons, if_neg (by rw [hc]; exact Bool.false_ne_true)]
    rw [e1, ih (c :: acc) rest (fun d hd => hns d (List.mem_cons_of_mem c hd))]
    have e2 : (c :: w').reverse ++ acc = w'.reverse ++ c :: acc := by
      rw [List.reverse_cons, List.append_assoc]
      rfl
    rw [e2]

theorem joinWords_cons_head (c : Char) (w' : List Char) (rest : List (List Char)) :
    ∃ t, joinWords ((c :: w') :: rest) = c :: t := by
  cases rest with
  | nil => exact ⟨w', rfl⟩
  | cons r rs => exact ⟨w' ++ ' ' :: joinWords (r :: rs), rfl⟩

theorem splitWs_joinWords :
    ∀ ws : List (List Char),
      (∀ w ∈ ws, w ≠ [] ∧ ∀ c ∈ w, isPySpace c = false) →
      splitWsChars (joinWords ws) = ws
  | [] => fun _ => rfl
  | [w] => by
    intro h
    obtain ⟨hne, hns⟩ := h w (List.mem_cons_self w [])
    show splitWsAux [] (joinWords [w]) = [w]
    have hj : joinWords [w] = w := rfl
    rw [hj]
    have := splitWsAux_append_word w [] [] hns
    rw [List.append_nil, List.append_nil] at this
    rw [this]
    unfold splitWsAux
    rw [if_neg (by
      intro hcon
      rw [List.isEmpty_iff, List.reverse_eq_nil_iff] at hcon
      exact hne hcon)]
    rw [List.reverse_reverse]
  | w :: w2 :: ws => by
    intro h
    obtain ⟨hne, hns⟩ := h w (List.mem_cons_self w _)
    have hrest : ∀ v ∈ w2 :: ws, v ≠ [] ∧ ∀ c ∈ v, isPySpace c = false :=
      fun v hv => h v (List.mem_cons_of_mem w hv)
    show splitWsAux [] (joinWords (w :: w2 :: ws)) = w :: w2 :: ws
    have hj : joinWords (w :: w2 :: ws) = w ++ ' ' :: joinWords (w2 :: ws) := rfl
    rw [hj]
    have hstep := splitWsAux_append_word w [] (' ' :: joinWords (w2 :: ws)) hns
    rw [List.append_nil] at hstep
    rw [hstep]
    unfold splitWsAux
    rw [if_pos (by decide)]
    rw [if_neg (by
      intro hcon
      rw [List.isEmpty_iff, List.reverse_eq_nil_iff] at hcon
      exact hne hcon)]
    rw [List.reverse_reverse]
    exact congrArg (w :: ·) (splitWs_joinWords (w2 :: ws) hrest)

theorem map_id_of_mem {A : Type} (f : A → A) :
    ∀ l : List A, (∀ c ∈ l, f c = c) → l.map f = l := by
  intro l
  induction l with
  | nil => intro _; rfl
  | cons c rest ih =>
    intro h
    show f c :: rest.map f = c :: rest
    rw [h c (List.mem_cons_self c rest), ih (fun d hd => h d (List.mem_cons_of_mem c hd))]

theorem mem_joinWords {c : Char} :
    ∀ ws : List (List Char), c ∈ joinWords ws → c = ' ' ∨ ∃ w ∈ ws, c ∈ w
  | [] => fun h => absurd h (List.not_mem_nil c)
  | [w] => fun h => Or.inr ⟨w, List.mem_cons_self w [], h⟩
  | w :: w2 :: ws => by
    intro h
    have hj : joinWords (w :: w2 :: ws) = w ++ ' ' :: joinWords (w2 :: ws) := rfl
    rw [hj] at h
    rcases List.mem_append.mp h with h1 | h1
    · exact Or.inr ⟨w, List.mem_cons_self w _, h1⟩
    · rcases List.mem_cons.mp h1 with h2 | h2
      · exact Or.inl h2
      · rcases mem_joinWords (w2 :: ws) h2 with h3 | ⟨v, hv, hcv⟩
        · exact Or.inl h3
        · exact Or.inr ⟨v, List.mem_cons_of_mem w hv, hcv⟩

theorem joinWords_append_single :
    ∀ (X : List (List Char)) (v : List Char), X ≠ [] →
      joinWords (X ++ [v]) = joinWords X ++ ' ' :: v
  | [], v => fun h => absurd rfl h
  | [x], v => fun _ => rfl
  | x :: x2 :: xs, v => by
    intro _
    have h1 : joinWords ((x :: x2 :: xs) ++ [v])
        = x ++ ' ' :: joinWords ((x2 :: xs) ++ [v]) := rfl
    rw [h1, joinWords_append_single (x2 :: xs) v (by simp)]
    show x ++ ' ' :: (joinWords (x2 :: xs) ++ ' ' :: v)
        = (x ++ ' ' :: joinWords (x2 :: xs)) ++ ' ' :: v
    rw [List.append_assoc]
    rfl

theorem joinWords_reverse :
    ∀ ws : List (List Char),
      (joinWords ws).reverse = joinWords ((ws.map List.reverse).reverse)
  | [] => rfl
  | [w] => rfl
  | w :: w2 :: ws => by
    have h1 : joinWords (w :: w2 :: ws) = w ++ ' ' :: joinWords (w2 :: ws) := rfl
    rw [h1]
    rw [List.reverse_append, List.reverse_cons]
    rw [joinWords_reverse (w2 :: ws)]
    have h2 : ((w :: w2 :: ws).map List.reverse).reverse
        = ((w2 :: ws).map List.reverse).reverse ++ [w.reverse] := by
      simp
    rw [h2]
    rw [joinWords_append_single _ w.reverse (by simp)]
    rw [List.append_assoc]
    rfl

theorem dropWhile_joinWords :
    ∀ ws : List (List Char),
      (∀ w ∈ ws, w ≠ [] ∧ ∀ c ∈ w, isPySpace c = false) →
      (joinWords ws).dropWhile isPySpace = joinWords ws := by
  intro ws h
  cases ws with
  | nil => rfl
  | cons w rest =>
    obtain ⟨hne, hns⟩ := h w (List.mem_cons_self w rest)
    cases hw : w with
    | nil => exact absurd hw hne
    | cons c w' =>
      subst hw
      obtain ⟨t, ht⟩ := joinWords_cons_head c w' rest
      rw [ht]
      rw [List.dropWhile_cons_of_neg]
      rw [hns c (List.mem_cons_self c w')]
      exact Bool.false_ne_true

theorem pyStrip_joinWords
    (ws : List (List Char))
    (h : ∀ w ∈ ws, w ≠ [] ∧ ∀ c ∈ w, isPySpace c = false) :
    pyStripChars (joinWords ws) = joinWords ws := by
  have hrev : ∀ w ∈ (ws.map List.reverse).reverse,
      w ≠ [] ∧ ∀ c ∈ w, isPySpace c = false := by
    intro w hw
    rw [List.mem_reverse] at hw
    obtain ⟨w0, hw0, heq⟩ := List.mem_map.mp hw
    obtain ⟨hne, hns⟩ := h w0 hw0
    subst heq
    constructor
    · rw [Ne, List.reverse_eq_nil_iff]
      exact hne
    · intro c hc
      exact hns c (List.mem_reverse.mp hc)
  unfold pyStripChars
  rw [dropWhile_joinWords ws h]
  rw [joinWords_reverse ws]
  rw [dropWhile_joinWords _ hrev]
  rw [← joinWords_reverse ws]
  rw [List.reverse_reverse]

theorem collapseWsAux_append_word :
    ∀ (w z : List Char), (∀ c ∈ w, isPySpace c = false) →
      collapseWsAux false (w ++ z) = w ++ collapseWsAux false z := by
  intro w
  induction w with
  | nil => intro z _; rfl
  | cons c w' ih =>
    intro z hns
    have hc : isPySpace c = false := hns c (List.mem_cons_self c w')
    have e1 : collapseWsAux false ((c :: w') ++ z) = c :: collapseWsAux false (w' ++ z) := by
      rw [List.cons_append, collapseWsAux_cons, if_neg (by rw [hc]; exact Bool.false_ne_true)]
    rw [e1, ih z (fun d hd => hns d (List.mem_cons_of_mem c hd))]
    rfl

theorem collapseWs_joinWords :
    ∀ ws : List (List Char),
      (∀ w ∈ ws, w ≠ [] ∧ ∀ c ∈ w, isPySpace c = false) →
      collapseWs (joinWords ws) = joinWords ws
  | [] => fun _ => rfl
  | [w] => by
    intro h
    obtain ⟨_, hns⟩ := h w (List.mem_cons_self w [])
    show collapseWsAux false (joinWords [w]) = joinWords [w]
    have hj : joinWords [w] = w := rfl
    rw [hj]
    have := collapseWsAux_append_word w [] hns
    rw [List.append_nil] at this
    rw [this, collapseWsAux_nil, List.append_nil]
  | w :: w2 :: ws => by
    intro h
    obtain ⟨_, hns⟩ := h w (List.mem_cons_self w _)
    have hrest : ∀ v ∈ w2 :: ws, v ≠ [] ∧ ∀ c ∈ v, isPySpace c = false :=
      fun v hv => h v (List.mem_cons_of_mem w hv)
    have hrec0 : collapseWsAux false (joinWords (w2 :: ws)) = joinWords (w2 :: ws) :=
      collapseWs_joinWords (w2 :: ws) hrest
    obtain ⟨hne2, hns2⟩ := hrest w2 (List.mem_cons_self w2 ws)
    obtain ⟨c, w2x, hw2⟩ : ∃ c w2x, w2 = c :: w2x := by
      cases w2 with
      | nil => exact absurd rfl hne2
      | cons a b => exact ⟨a, b, rfl⟩
    subst hw2
    have hc : isPySpace c = false := hns2 c (List.mem_cons_self c w2x)
    obtain ⟨t, ht⟩ := joinWords_cons_head c w2x ws
    show collapseWsAux false (joinWords (w :: (c :: w2x) :: ws)) = joinWords (w :: (c :: w2x) :: ws)
    have hj : joinWords (w :: (c :: w2x) :: ws)
        = w ++ ' ' :: joinWords ((c :: w2x) :: ws) := rfl
    rw [hj, collapseWsAux_append_word w _ hns]
    congr 1
    rw [ht]
    rw [collapseWsAux_cons, if_pos (show isPySpace ' ' = true by decide)]
    rw [if_neg (show ¬(false = true) from Bool.false_ne_true)]
    rw [ht] at hrec0
    rw [collapseWsAux_cons, if_neg (by rw [hc]; exact Bool.false_ne_true)] at hrec0 ⊢
    exact congrArg (' ' :: ·) hrec0

theorem subNonWordSpace_joinWords
    (ws : List (List Char))
    (h : ∀ w ∈ ws, ∀ c ∈ w, isWordChar c = true) :
    subNonWordSpace (joinWords ws) = joinWords ws := by
  unfold subNonWordSpace
  apply map_id_of_mem
  intro c hc
  rcases mem_joinWords ws hc with h1 | ⟨w, hw, hcw⟩
  · subst h1
    rfl
  · rw [h w hw c hcw]
    rfl

theorem pyLowerChars_joinWords
    (ws : List (List Char))
    (h : ∀ w ∈ ws, ∀ c ∈ w, pyLowerChar c = c) :
    pyLowerChars (joinWords ws) = joinWords ws := by
  unfold pyLowerChars
  apply map_id_of_mem
  intro c hc
  rcases mem_joinWords ws hc with h1 | ⟨w, hw, hcw⟩
  · subst h1
    rfl
  · exact h w hw c hcw

theorem preprocessBasicCore_idem (l : List Char) :
    preprocessBasicCore (preprocessBasicCore l) = preprocessBasicCore l := by
  have hcore : preprocessBasicCore l
      = joinWords ((splitWsChars (collapseWs (subNonWordSpace
          (pyStripChars (pyLowerChars l))))).filter (keepToken basicStopWords)) := rfl
  set ws := (splitWsChars (collapseWs (subNonWordSpace
      (pyStripChars (pyLowerChars l))))).filter (keepToken basicStopWords) with hws
  have hmem : ∀ w ∈ ws, w ≠ [] ∧ ∀ c ∈ w,
      isWordChar c = true ∧ pyLowerChar c = c := by
    intro w hw
    rw [hws, List.mem_filter] at hw
    obtain ⟨hwsplit, _⟩ := hw
    obtain ⟨hne, hchars⟩ := splitWsAux_mem _ [] w hwsplit
    refine ⟨hne, fun c hc => ?_⟩
    rcases hchars c hc with h1 | ⟨hmemt2, hnsp⟩
    · exact absurd h1 (List.not_mem_nil c)
    · rcases mem_collapseWsAux _ false hmemt2 with h2 | h2
      · rw [h2] at hnsp
        exact absurd hnsp (by decide)
      · obtain ⟨hword, hmemt1⟩ := mem_subNonWordSpace h2 hnsp
        refine ⟨hword, ?_⟩
        have hmeml : c ∈ pyLowerChars l := mem_pyStripChars hmemt1
        obtain ⟨c0, _, heq⟩ := List.mem_map.mp hmeml
        rw [← heq, pyLowerChar_idem]
  have hns : ∀ w ∈ ws, w ≠ [] ∧ ∀ c ∈ w, isPySpace c = false := by
    intro w hw
    obtain ⟨hne, hch⟩ := hmem w hw
    exact ⟨hne, fun c hc => word_not_space (hch c hc).1⟩
  have hkeep : ∀ w ∈ ws, keepToken basicStopWords w = true := by
    intro w hw
    rw [hws, List.mem_filter] at hw
    exact hw.2
  rw [hcore]
  have hfinal : preprocessBasicCore (joinWords ws)
      = joinWords ((splitWsChars (collapseWs (subNonWordSpace
          (pyStripChars (pyLowerChars (joinWords ws)))))).filter
            (keepToken basicStopWords)) := rfl
  rw [hfinal]
  rw [pyLowerChars_joinWords ws (fun w hw c hc => ((hmem w hw).2 c hc).2)]
  rw [pyStrip_joinWords ws hns]
  rw [subNonWordSpace_joinWords ws (fun w hw c hc => ((hmem w hw).2 c hc).1)]
  rw [collapseWs_joinWords ws hns]
  rw [splitWs_joinWords ws hns]
  rw [List.filter_eq_self.mpr hkeep]

/-- C8 (amended): the text normalizer is idempotent in the stemmer-unavailable
fallback configuration: for every input string `x`,
`preprocess_text (preprocess_text x) = preprocess_text x` when
`NLTK_AVAILABLE = False`. (The stemmer-available configuration is not
idempotent; see the counterexample.) -/
theorem C8_basic_idempotent (s : String) :
    preprocessBasic (preprocessBasic s) = preprocessBasic s := by
  unfold preprocessBasic
  by_cases h : s = ""
  · rw [if_pos h, if_pos rfl]
  · rw [if_neg h]
    by_cases h2 : String.mk (preprocessBasicCore s.data) = ""
    · rw [if_pos h2]
      exact h2.symm
    · rw [if_neg h2]
      have hd : (String.mk (preprocessBasicCore s.data)).data
          = preprocessBasicCore s.data := rfl
      rw [hd, preprocessBasicCore_idem]

/-- C8 counterexample: in the stemmer-available configuration the normalizer is
NOT idempotent. On the input `"ads"` the first pass stems to `"ad"` (Porter
step 1a), and the second pass deletes the token outright because its length is
no longer greater than 2, so `preprocess_text (preprocess_text "ads")` is the
empty string while `preprocess_text "ads"` is `"ad"`. -/
theorem C8_nltk_idempotence_counterexample :
    preprocessNltk (preprocessNltk "ads") ≠ preprocessNltk "ads" := by
  have h1 : preprocessNltk "ads" = "ad" := rfl
  rw [h1]
  have h2 : preprocessNltk "ad" = "" := rfl
  rw [h2]
  decide
